import Mathlib

/-!
Shallow embedding of the `lgmath` SO(3) rotation core
(`src/src/so3/Rotation.cpp`, `src/include/lgmath/so3/Rotation.hpp`).

The `Rotation` entity stores one 3x3 matrix (`C_ba_`) and manipulates it with
plain matrix arithmetic plus calls into two external map functions,
`lgmath::so3::vec2rot` and `lgmath::so3::rot2vec`, declared in
`lgmath/so3/Operations.hpp` (not part of this snapshot).  The entity is
embedded over `ℚ` (exact arithmetic idealising `double`), with the external
map functions passed as explicit function parameters (`SO3Ops`), so every
theorem about the entity quantifies over all possible behaviours of the
external maps.  The maps themselves are modelled from the specification over
`ℝ` in a second part of the file.
-/

namespace LgRot

/-- 3x3 rational matrix, idealising Eigen::Matrix3d. -/
abbrev Mat3 := Matrix (Fin 3) (Fin 3) ℚ

/-- Rational 3-vector, idealising Eigen::Vector3d. -/
abbrev Vec3 := Fin 3 → ℚ

/-- Determinant drift tolerance used by `Rotation::reproject` (`1e-6`). -/
def detTol : ℚ := 1 / 1000000

/-- The external map functions from `lgmath/so3/Operations.hpp` that
`Rotation.cpp` calls: `vec2rot(aaxis, numTerms)` and `rot2vec(C)`.  They are
not part of the source snapshot, so the entity is parametrised over them. -/
structure SO3Ops where
  vec2rot : Vec3 → ℕ → Mat3
  rot2vec : Mat3 → Vec3

/-- The rotation entity: owns exactly one 3x3 matrix `C_ba_`
(`Rotation.hpp`, private field `Eigen::Matrix3d C_ba_`). -/
structure Rotation where
  C_ba : Mat3

/-- Membership in SO(3), exactly: `CᵀC = I` and `det C = 1`. -/
def isSO3 (C : Mat3) : Prop := C.transpose * C = 1 ∧ C.det = 1

instance (C : Mat3) : Decidable (isSO3 C) := by
  unfold isSO3; infer_instance

/-- `Rotation::reproject(bool force)` (Rotation.cpp lines 102-106):
`if (force || fabs(1.0 - C.determinant()) > 1e-6) C = vec2rot(rot2vec(C));`.
The round-trip calls the external maps with the default `numTerms = 0`. -/
def reproject (ops : SO3Ops) (force : Bool) (r : Rotation) : Rotation :=
  if force = true ∨ |1 - r.C_ba.det| > detTol then
    ⟨ops.vec2rot (ops.rot2vec r.C_ba) 0⟩
  else r

/-- Default constructor `Rotation::Rotation()`: identity matrix. -/
def mkIdentity : Rotation := ⟨1⟩

/-- Constructor `Rotation::Rotation(const Eigen::Matrix3d& C)`: store `C`,
then trigger a conditional reprojection (`reproject(false)`). -/
def fromMatrix (ops : SO3Ops) (C : Mat3) : Rotation :=
  reproject ops false ⟨C⟩

/-- Constructor `Rotation::Rotation(const Eigen::Vector3d&, unsigned int)`:
`C_ba_ = vec2rot(aaxis_ab, numTerms)`; no reprojection. -/
def fromAxisAngle (ops : SO3Ops) (aaxis : Vec3) (numTerms : ℕ) : Rotation :=
  ⟨ops.vec2rot aaxis numTerms⟩

/-- The error raised by the general-vector constructor. -/
inductive LgError
  | invalidDimension
deriving DecidableEq

/-- Reads a length-3 list as a 3-vector (Eigen `VectorXd` indexing under the
`rows() == 3` guard; the `getD` default is never reached there). -/
def listToVec3 (v : List ℚ) : Vec3 := ![v.getD 0 0, v.getD 1 0, v.getD 2 0]

/-- Constructor `Rotation::Rotation(const Eigen::VectorXd& aaxis_ab)`
(Rotation.cpp lines 51-61): if `aaxis_ab.rows() != 3`, throw
`std::invalid_argument` before any computation; otherwise
`C_ba_ = vec2rot(aaxis_ab)` (default `numTerms = 0`). -/
def fromVectorXd (ops : SO3Ops) (v : List ℚ) : Except LgError Rotation :=
  if v.length ≠ 3 then
    .error .invalidDimension
  else
    .ok ⟨ops.vec2rot (listToVec3 v) 0⟩

/-- `Rotation::matrix()`: returns the underlying matrix, no side effect. -/
def Rotation.matrix (r : Rotation) : Mat3 := r.C_ba

/-- `Rotation::vec()`: `rot2vec(C_ba_)`, no side effect. -/
def Rotation.vec (ops : SO3Ops) (r : Rotation) : Vec3 := ops.rot2vec r.C_ba

/-- `Rotation::inverse()` (Rotation.cpp lines 90-95): a fresh Rotation holding
the transpose, then a conditional reprojection. -/
def inverse (ops : SO3Ops) (r : Rotation) : Rotation :=
  reproject ops false ⟨r.C_ba.transpose⟩

/-- `Rotation::operator*=(const Rotation&)` (Rotation.cpp lines 111-120):
`C_ba_ = C_ba_ * rhs.C_ba_`, then conditional reprojection. -/
def mulAssign (ops : SO3Ops) (r rhs : Rotation) : Rotation :=
  reproject ops false ⟨r.C_ba * rhs.C_ba⟩

/-- `Rotation::operator*(const Rotation&)` (Rotation.cpp lines 125-129):
copy `this` into `temp`, apply `temp *= rhs`, return `temp`. -/
def mul (ops : SO3Ops) (r rhs : Rotation) : Rotation :=
  mulAssign ops r rhs

/-- `Rotation::operator/=(const Rotation&)` (Rotation.cpp lines 134-143):
`C_ba_ = C_ba_ * rhs.C_ba_.transpose()`, then conditional reprojection. -/
def divAssign (ops : SO3Ops) (r rhs : Rotation) : Rotation :=
  reproject ops false ⟨r.C_ba * rhs.C_ba.transpose⟩

/-- `Rotation::operator/(const Rotation&)` (Rotation.cpp lines 148-152):
copy `this` into `temp`, apply `temp /= rhs`, return `temp`. -/
def div (ops : SO3Ops) (r rhs : Rotation) : Rotation :=
  divAssign ops r rhs

/-- `Rotation::operator*(const Eigen::Vector3d& p_a) const`
(Rotation.cpp lines 157-159): the matrix-vector product `C_ba_ * p_a`;
a `const` member, so the stored matrix is untouched. -/
def applyToPoint (r : Rotation) (p : Vec3) : Vec3 :=
  r.C_ba.mulVec p

/-- One composition step of the entity: either `operator*=` (compose) or
`operator/=` (composeInverse) with a given right-hand operand. -/
inductive RotOp
  | comp (rhs : Rotation)
  | compInv (rhs : Rotation)

/-- The right-hand operand of a composition step. -/
def RotOp.operand : RotOp → Rotation
  | .comp b => b
  | .compInv b => b

/-- Run one composition step on the accumulated rotation. -/
def applyOp (ops : SO3Ops) (r : Rotation) : RotOp → Rotation
  | .comp b => mulAssign ops r b
  | .compInv b => divAssign ops r b

/-- Run a finite sequence of compose / composeInverse steps. -/
def applyOps (ops : SO3Ops) (r : Rotation) (l : List RotOp) : Rotation :=
  l.foldl (applyOp ops) r

/-- The skew-symmetric (hat) matrix of a rational 3-vector. -/
def hatQ (v : Vec3) : Mat3 :=
  !![0, -v 2, v 1; v 2, 0, -v 0; -v 1, v 0, 0]

/-- Modelled from the spec: the truncated-power-series mode of `vec2rot`
(`numTerms > 0`), from `lgmath/so3/Operations.hpp` which is absent from the
snapshot: `C = I + φ^ + φ^²/2! + … + φ^^numTerms/numTerms!`, a direct
truncation of the matrix exponential series, with no reprojection. -/
def vec2rotSeries (φ : Vec3) (numTerms : ℕ) : Mat3 :=
  ∑ k ∈ Finset.range (numTerms + 1), (1 / (k.factorial : ℚ)) • hatQ φ ^ k

/-- A 90-degree rotation about the z axis: an exact member of SO(3) over ℚ. -/
def Rz : Mat3 := !![0, -1, 0; 1, 0, 0; 0, 0, 1]

/-- A volume-preserving shear: determinant 1 but not orthonormal. -/
def shearMat : Mat3 := !![1, 1, 0; 0, 1, 0; 0, 0, 1]

/-- A trivial instantiation of the external maps, used in witnesses. -/
def trivOps : SO3Ops := ⟨fun _ _ => 1, fun _ => 0⟩

/-- External maps whose `vec2rot` is the truncated series for every
`numTerms`, used to exercise the series construction path. -/
def seriesOps : SO3Ops := ⟨vec2rotSeries, fun _ => 0⟩

/-- The unit vector along the first axis. -/
def e₁ : Vec3 := ![1, 0, 0]

/-! ## Spec-modelled map functions over the reals

`exponentialMap` (`vec2rot`) and `logarithmicMap` (`rot2vec`) live in
`lgmath/so3/Operations.hpp/.cpp`, which is not part of the snapshot; the
definitions below are modelled from the specification (section 4.1), with the
floating-point tolerances idealised to exact tests under exact real
arithmetic. -/

/-- Real 3x3 matrix. -/
abbrev Mat3R := Matrix (Fin 3) (Fin 3) ℝ

/-- Real 3-vector. -/
abbrev Vec3R := Fin 3 → ℝ

/-- The skew-symmetric (hat) matrix of a real 3-vector. -/
def hatR (v : Vec3R) : Mat3R :=
  !![0, -v 2, v 1; v 2, 0, -v 0; -v 1, v 0, 0]

/-- The vex operator: extracts the axis vector of a skew-symmetric matrix
(inverse of the hat operator). -/
def vexR (M : Mat3R) : Vec3R := ![M 2 1, M 0 2, M 1 0]

/-- Outer product `a·bᵀ` of two 3-vectors. -/
def outerR (a b : Vec3R) : Mat3R :=
  !![a 0 * b 0, a 0 * b 1, a 0 * b 2;
     a 1 * b 0, a 1 * b 1, a 1 * b 2;
     a 2 * b 0, a 2 * b 1, a 2 * b 2]

/-- Euclidean norm of a 3-vector. -/
noncomputable def norm3 (v : Vec3R) : ℝ :=
  Real.sqrt (v 0 ^ 2 + v 1 ^ 2 + v 2 ^ 2)

/-- Membership in SO(3) over the reals, exactly. -/
def isSO3R (C : Mat3R) : Prop := C.transpose * C = 1 ∧ C.det = 1

/-- Modelled from the spec: the closed-form (Rodrigues) `exponentialMap`
from `lgmath/so3/Operations.hpp` (absent from the snapshot),
`numTerms = 0` mode.  If `θ = ‖φ‖` is zero (spec: below a small tolerance,
idealised here to exactly zero) return the identity; otherwise
`C = cos θ · I + (1 − cos θ) · â·âᵀ + sin θ · â^` with `â = φ/θ`. -/
noncomputable def expMapR (φ : Vec3R) : Mat3R :=
  if norm3 φ = 0 then 1
  else
    Real.cos (norm3 φ) • (1 : Mat3R)
      + (1 - Real.cos (norm3 φ)) • outerR ((norm3 φ)⁻¹ • φ) ((norm3 φ)⁻¹ • φ)
      + Real.sin (norm3 φ) • hatR ((norm3 φ)⁻¹ • φ)

/-- Clamp to `[-1, 1]` (spec: guard against floating-point overshoot). -/
def clamp1 (x : ℝ) : ℝ := max (-1) (min 1 x)

/-- The index of the largest diagonal entry of a matrix (spec: identifies
which axis component to extract first in the near-π branch; ties broken by
first index, an implementation choice the spec leaves open). -/
noncomputable def piAxisIdx (N : Mat3R) : Fin 3 :=
  if N 0 0 ≥ N 1 1 ∧ N 0 0 ≥ N 2 2 then 0
  else if N 1 1 ≥ N 2 2 then 1 else 2

/-- Modelled from the spec (`logarithmicMap`, step 1): the clamped cosine
`cos θ = clamp((trace C − 1)/2)`. -/
noncomputable def cosθof (C : Mat3R) : ℝ := clamp1 ((Matrix.trace C - 1) / 2)

/-- Modelled from the spec (`logarithmicMap`, step 1): the recovered angle
`θ = arccos(cos θ) ∈ [0, π]`. -/
noncomputable def θof (C : Mat3R) : ℝ := Real.arccos (cosθof C)

/-- Modelled from the spec (`logarithmicMap`, near-π branch): the symmetric
matrix `(C + Cᵀ)/2 − cos θ·I` whose dominant column carries the axis. -/
noncomputable def piN (C : Mat3R) : Mat3R :=
  (1 / 2 : ℝ) • (C + C.transpose) - cosθof C • (1 : Mat3R)

/-- Modelled from the spec: the `logarithmicMap` from
`lgmath/so3/Operations.hpp` (absent from the snapshot).
Zero-angle branch extracts `vex((C − Cᵀ)/2)`; near-π branch recovers the
axis from the dominant column of `(C + Cᵀ)/2 − cos θ·I` (the diagonal entry
of largest magnitude picks the component extracted first, via the square
root; the off-diagonal entries of that column resolve the signs), then
scales by `θ`; generic branch is `θ/(2 sin θ) · vex(C − Cᵀ)`.  The spec's
small tolerances around `θ = 0` and `θ = π` are idealised to exact tests. -/
noncomputable def logMapR (C : Mat3R) : Vec3R :=
  if θof C = 0 then vexR ((1 / 2 : ℝ) • (C - C.transpose))
  else if θof C = Real.pi then
    fun i => θof C *
      (piN C i (piAxisIdx (piN C)) /
        (2 * Real.sqrt (piN C (piAxisIdx (piN C)) (piAxisIdx (piN C)) / 2)))
  else (θof C / (2 * Real.sin (θof C))) • vexR (C - C.transpose)

end LgRot

namespace LgRot

/-! ## Helper lemmas -/

lemma detTol_nonneg : (0 : ℚ) ≤ detTol := by norm_num [detTol]

lemma isSO3_one : isSO3 (1 : Mat3) := by
  constructor
  · simp
  · simp

lemma isSO3.det_eq (h : isSO3 C) : C.det = 1 := h.2

lemma isSO3.mul_right_inv (h : isSO3 C) : C * C.transpose = 1 :=
  Matrix.mul_eq_one_comm.mp h.1

lemma isSO3.transpose (h : isSO3 C) : isSO3 C.transpose := by
  refine ⟨?_, ?_⟩
  · rw [Matrix.transpose_transpose]
    exact h.mul_right_inv
  · rw [Matrix.det_transpose]
    exact h.2

lemma isSO3.mul {A B : Mat3} (hA : isSO3 A) (hB : isSO3 B) : isSO3 (A * B) := by
  refine ⟨?_, ?_⟩
  · rw [Matrix.transpose_mul, Matrix.mul_assoc, ← Matrix.mul_assoc A.transpose,
      hA.1, Matrix.one_mul, hB.1]
  · rw [Matrix.det_mul, hA.2, hB.2, one_mul]

lemma reproject_of_det_ok (ops : SO3Ops) (r : Rotation)
    (h : |1 - r.C_ba.det| ≤ detTol) : reproject ops false r = r := by
  unfold reproject
  rw [if_neg]
  rintro (hc | hc)
  · exact Bool.false_ne_true hc
  · exact absurd h (not_le.mpr hc)

lemma reproject_of_det_one (ops : SO3Ops) (r : Rotation)
    (h : r.C_ba.det = 1) : reproject ops false r = r := by
  apply reproject_of_det_ok
  rw [h]
  norm_num [detTol]

lemma isSO3_Rz : isSO3 Rz := by
  constructor
  · have h : Rz.transpose = !![0, 1, 0; -1, 0, 0; 0, 0, 1] := by
      ext i j; fin_cases i <;> fin_cases j <;> rfl
    rw [h, Rz, Matrix.one_fin_three]
    norm_num [Matrix.mul_fin_three]
  · rw [Rz]
    norm_num [Matrix.det_fin_three]

/-! ## Claim theorems -/

/-- C3: `reproject(force)` replaces the stored matrix with the external
round-trip `vec2rot(rot2vec(C))` exactly when `force` is true or
`|1 − det C| > 1e-6`; when `force` is false and the determinant check passes
the rotation is returned bitwise unchanged. -/
theorem c3_reproject_conditional (ops : SO3Ops) (force : Bool) (r : Rotation) :
    (force = true ∨ |1 - r.C_ba.det| > detTol →
      reproject ops force r = ⟨ops.vec2rot (ops.rot2vec r.C_ba) 0⟩) ∧
    (force = false → |1 - r.C_ba.det| ≤ detTol → reproject ops force r = r) := by
  constructor
  · intro h
    unfold reproject
    rw [if_pos h]
  · intro hf hd
    unfold reproject
    rw [if_neg]
    rintro (hc | hc)
    · rw [hf] at hc
      exact Bool.false_ne_true hc
    · exact absurd hd (not_le.mpr hc)

/-- Witness for C3: the zero matrix (determinant 0) is replaced by the
round-trip output, while the valid rotation `Rz` is left unchanged. -/
theorem c3_witness :
    reproject trivOps false ⟨(0 : Mat3)⟩ =
      ⟨trivOps.vec2rot (trivOps.rot2vec (0 : Mat3)) 0⟩ ∧
    reproject trivOps false ⟨Rz⟩ = ⟨Rz⟩ := by
  constructor
  · exact (c3_reproject_conditional trivOps false ⟨(0 : Mat3)⟩).1
      (Or.inr (by norm_num [Matrix.det_zero, detTol]))
  · exact (c3_reproject_conditional trivOps false ⟨Rz⟩).2 rfl
      (by rw [Rz]; norm_num [Matrix.det_fin_three, detTol])

/-- C5: the general-vector constructor fails with `InvalidDimension` exactly
when the input length is not 3 (before any computation), and any error it
produces is `InvalidDimension`; with a length-3 input it succeeds and stores
`vec2rot` of the vector. -/
theorem c5_vector_constructor_dimension_check (ops : SO3Ops) (v : List ℚ) :
    (v.length ≠ 3 → fromVectorXd ops v = .error .invalidDimension) ∧
    (v.length = 3 → fromVectorXd ops v = .ok ⟨ops.vec2rot (listToVec3 v) 0⟩) ∧
    (∀ e r, fromVectorXd ops v = .error e →
      e = .invalidDimension ∧ v.length ≠ 3 ∧ fromVectorXd ops v ≠ .ok r) := by
  refine ⟨?_, ?_, ?_⟩
  · intro h
    unfold fromVectorXd
    rw [if_pos h]
  · intro h
    unfold fromVectorXd
    rw [if_neg (by simp [h])]
  · intro e r he
    unfold fromVectorXd at he ⊢
    by_cases h : v.length ≠ 3
    · rw [if_pos h] at he ⊢
      cases he
      exact ⟨rfl, h, by simp⟩
    · rw [if_neg h] at he
      cases he

/-- Witness for C5: a length-2 list is rejected with `InvalidDimension`, a
length-3 list constructs the rotation. -/
theorem c5_witness :
    fromVectorXd trivOps [1, 2] = .error .invalidDimension ∧
    fromVectorXd trivOps [0, 0, 0] =
      .ok ⟨trivOps.vec2rot (listToVec3 [0, 0, 0]) 0⟩ := by
  constructor
  · exact (c5_vector_constructor_dimension_check trivOps [1, 2]).1 (by simp)
  · exact (c5_vector_constructor_dimension_check trivOps [0, 0, 0]).2.1 (by simp)

/-- C9: applying a rotation to a point is exactly the matrix-vector product
of the stored matrix (whatever it is, valid or not) with the point; the
operation involves no reprojection and builds no new rotation state. -/
theorem c9_point_application_pure (M : Mat3) (p : Vec3) :
    applyToPoint ⟨M⟩ p = M.mulVec p ∧
    (∀ i, applyToPoint ⟨M⟩ p i = ∑ j, M i j * p j) := by
  constructor
  · rfl
  · intro i
    simp [applyToPoint, Matrix.mulVec, Matrix.dotProduct]

/-- C10: the from-matrix constructor stores its input bitwise unchanged
whenever `|1 − det C| ≤ 1e-6`, even for a non-orthonormal input such as a
volume-preserving shear: the validity check inspects only the determinant. -/
theorem c10_matrix_constructor_det_only (ops : SO3Ops) (C : Mat3)
    (h : |1 - C.det| ≤ detTol) :
    (fromMatrix ops C).C_ba = C ∧ (fromMatrix ops C).matrix = C ∧
    shearMat.transpose * shearMat ≠ 1 ∧ |1 - shearMat.det| ≤ detTol ∧
    (fromMatrix ops shearMat).C_ba = shearMat := by
  have hshearDet : |1 - shearMat.det| ≤ detTol := by
    rw [shearMat]
    norm_num [Matrix.det_fin_three, detTol]
  have hstore : ∀ D : Mat3, |1 - D.det| ≤ detTol → (fromMatrix ops D).C_ba = D := by
    intro D hD
    unfold fromMatrix
    rw [reproject_of_det_ok ops ⟨D⟩ hD]
  refine ⟨hstore C h, ?_, ?_, hshearDet, hstore shearMat hshearDet⟩
  · show (fromMatrix ops C).C_ba = C
    exact hstore C h
  · have hT : shearMat.transpose = !![1, 0, 0; 1, 1, 0; 0, 0, 1] := by
      ext i j; fin_cases i <;> fin_cases j <;> rfl
    rw [hT, shearMat, Matrix.one_fin_three]
    norm_num [Matrix.mul_fin_three]
    intro hc
    have := congrFun (congrFun hc 0) 1
    norm_num at this

/-- Witness for C10: instantiated at the shear matrix itself. -/
theorem c10_witness :
    (fromMatrix trivOps shearMat).C_ba = shearMat ∧
    shearMat.transpose * shearMat ≠ 1 := by
  have h := c10_matrix_constructor_det_only trivOps shearMat
    (by rw [shearMat]; norm_num [Matrix.det_fin_three, detTol])
  exact ⟨h.1, h.2.2.1⟩

end LgRot

namespace LgRot

/-! ## Composition claims -/

lemma mulAssign_C {ops : SO3Ops} {a b : Rotation}
    (hA : isSO3 a.C_ba) (hB : isSO3 b.C_ba) :
    (mulAssign ops a b).C_ba = a.C_ba * b.C_ba ∧ isSO3 (mulAssign ops a b).C_ba := by
  have hAB : isSO3 (a.C_ba * b.C_ba) := hA.mul hB
  have : mulAssign ops a b = ⟨a.C_ba * b.C_ba⟩ :=
    reproject_of_det_one ops ⟨a.C_ba * b.C_ba⟩ hAB.2
  rw [this]
  exact ⟨rfl, hAB⟩

lemma divAssign_C {ops : SO3Ops} {a b : Rotation}
    (hA : isSO3 a.C_ba) (hB : isSO3 b.C_ba) :
    (divAssign ops a b).C_ba = a.C_ba * b.C_ba.transpose ∧
      isSO3 (divAssign ops a b).C_ba := by
  have hAB : isSO3 (a.C_ba * b.C_ba.transpose) := hA.mul hB.transpose
  have : divAssign ops a b = ⟨a.C_ba * b.C_ba.transpose⟩ :=
    reproject_of_det_one ops ⟨a.C_ba * b.C_ba.transpose⟩ hAB.2
  rw [this]
  exact ⟨rfl, hAB⟩

lemma applyOps_preserves (ops : SO3Ops) :
    ∀ (l : List RotOp) (r : Rotation), isSO3 r.C_ba →
      (∀ o ∈ l, isSO3 (RotOp.operand o).C_ba) → isSO3 (applyOps ops r l).C_ba := by
  intro l
  induction l with
  | nil => intro r hr _; exact hr
  | cons o t ih =>
    intro r hr hl
    have ho : isSO3 (RotOp.operand o).C_ba := hl o (List.mem_cons_self o t)
    have ht : ∀ p ∈ t, isSO3 (RotOp.operand p).C_ba :=
      fun p hp => hl p (List.mem_cons_of_mem o hp)
    have hstep : isSO3 (applyOp ops r o).C_ba := by
      cases o with
      | comp b => exact (mulAssign_C hr ho).2
      | compInv b => exact (divAssign_C hr ho).2
    show isSO3 ((o :: t).foldl (applyOp ops) r).C_ba
    rw [List.foldl_cons]
    exact ih (applyOp ops r o) hstep ht

/-- C2: starting from a rotation satisfying the SO(3) invariant, any finite
sequence of compose (`operator*=`) and composeInverse (`operator/=`) steps
with valid operands keeps the stored matrix in SO(3): exactly, hence within
the stated tolerances `‖CᵀC − I‖ < 1e-6` (entrywise) and `|det C − 1| < 1e-6`. -/
theorem c2_composition_preserves_SO3 (ops : SO3Ops) (r : Rotation) (l : List RotOp)
    (hr : isSO3 r.C_ba) (hl : ∀ o ∈ l, isSO3 (RotOp.operand o).C_ba) :
    isSO3 (applyOps ops r l).C_ba ∧
    (∀ i j, |((applyOps ops r l).C_ba.transpose * (applyOps ops r l).C_ba - 1) i j|
      < detTol) ∧
    |(applyOps ops r l).C_ba.det - 1| < detTol := by
  have h := applyOps_preserves ops l r hr hl
  refine ⟨h, ?_, ?_⟩
  · intro i j
    rw [h.1]
    simp [detTol]
  · rw [h.2]
    simp [detTol]

/-- Witness for C2: identity rotation composed with `Rz` and then
composeInverse by `Rz` stays exactly in SO(3). -/
theorem c2_witness :
    isSO3 (applyOps trivOps mkIdentity [RotOp.comp ⟨Rz⟩, RotOp.compInv ⟨Rz⟩]).C_ba := by
  refine (c2_composition_preserves_SO3 trivOps mkIdentity
    [RotOp.comp ⟨Rz⟩, RotOp.compInv ⟨Rz⟩] isSO3_one ?_).1
  intro o ho
  fin_cases ho
  · exact isSO3_Rz
  · exact isSO3_Rz

/-- C6: `operator*` copies the left operand and delegates to `operator*=`,
which forms the matrix product `this.C · rhs.C` and then conditionally
reprojects; for valid operands the stored result is exactly the product. -/
theorem c6_compose_structure (ops : SO3Ops) (a b : Rotation) :
    mul ops a b = mulAssign ops a b ∧
    mul ops a b = reproject ops false ⟨a.C_ba * b.C_ba⟩ ∧
    (isSO3 a.C_ba → isSO3 b.C_ba → (mul ops a b).C_ba = a.C_ba * b.C_ba) := by
  refine ⟨rfl, rfl, ?_⟩
  intro hA hB
  exact (mulAssign_C hA hB).1

/-- Witness for C6: `Rz * Rz` stores exactly the matrix product. -/
theorem c6_witness : (mul trivOps ⟨Rz⟩ ⟨Rz⟩).C_ba = Rz * Rz :=
  (c6_compose_structure trivOps ⟨Rz⟩ ⟨Rz⟩).2.2 isSO3_Rz isSO3_Rz

/-- C4: `operator/` copies and delegates to `operator/=`, which forms
`this.C · rhs.Cᵀ` directly and conditionally reprojects; for a valid
right-hand operand the result coincides exactly with `compose(rhs.inverse())`. -/
theorem c4_composeInverse_equiv (ops : SO3Ops) (a b : Rotation) :
    div ops a b = divAssign ops a b ∧
    div ops a b = reproject ops false ⟨a.C_ba * b.C_ba.transpose⟩ ∧
    (isSO3 b.C_ba → div ops a b = mul ops a (inverse ops b)) := by
  refine ⟨rfl, rfl, ?_⟩
  intro hB
  have hinv : inverse ops b = ⟨b.C_ba.transpose⟩ :=
    reproject_of_det_one ops ⟨b.C_ba.transpose⟩ hB.transpose.2
  show divAssign ops a b = mulAssign ops a (inverse ops b)
  rw [hinv]
  rfl

/-- Witness for C4: dividing by the valid rotation `Rz` equals composing with
its inverse. -/
theorem c4_witness :
    div trivOps ⟨Rz⟩ ⟨Rz⟩ = mul trivOps ⟨Rz⟩ (inverse trivOps ⟨Rz⟩) :=
  (c4_composeInverse_equiv trivOps ⟨Rz⟩ ⟨Rz⟩).2.2 isSO3_Rz

/-- C7: for a valid rotation, `inverse()` stores exactly the transpose, and
composing with the inverse on either side gives exactly the identity matrix
(hence within any tolerance of the identity Rotation). -/
theorem c7_inverse_correct (ops : SO3Ops) (r : Rotation) (h : isSO3 r.C_ba) :
    (inverse ops r).C_ba = r.C_ba.transpose ∧
    (mul ops r (inverse ops r)).C_ba = 1 ∧
    (mul ops (inverse ops r) r).C_ba = 1 := by
  have hinv : inverse ops r = ⟨r.C_ba.transpose⟩ :=
    reproject_of_det_one ops ⟨r.C_ba.transpose⟩ h.transpose.2
  refine ⟨by rw [hinv], ?_, ?_⟩
  · rw [hinv]
    have hm := @mulAssign_C ops r ⟨r.C_ba.transpose⟩ h h.transpose
    rw [show (mul ops r ⟨r.C_ba.transpose⟩) = mulAssign ops r ⟨r.C_ba.transpose⟩ from rfl,
      hm.1]
    exact h.mul_right_inv
  · rw [hinv]
    have hm := @mulAssign_C ops ⟨r.C_ba.transpose⟩ r h.transpose h
    rw [show (mul ops (⟨r.C_ba.transpose⟩ : Rotation) r) =
      mulAssign ops ⟨r.C_ba.transpose⟩ r from rfl, hm.1]
    exact h.1

/-- Witness for C7: instantiated at `Rz`. -/
theorem c7_witness :
    (inverse trivOps ⟨Rz⟩).C_ba = Rz.transpose ∧
    (mul trivOps ⟨Rz⟩ (inverse trivOps ⟨Rz⟩)).C_ba = 1 :=
  ⟨(c7_inverse_correct trivOps ⟨Rz⟩ isSO3_Rz).1,
   (c7_inverse_correct trivOps ⟨Rz⟩ isSO3_Rz).2.1⟩

/-- C8: the axis-angle constructor stores exactly the output of
`vec2rot(φ, numTerms)` with no reprojection, for every behaviour of the
external maps; with the truncated series at `numTerms = 1` the stored matrix
`I + φ^` is not orthonormal (and its determinant is far from 1, yet it is
stored unchanged). -/
theorem c8_axis_angle_constructor_no_reproject :
    (∀ (ops : SO3Ops) (φ : Vec3) (n : ℕ), (fromAxisAngle ops φ n).C_ba = ops.vec2rot φ n) ∧
    (fromAxisAngle seriesOps e₁ 1).C_ba = vec2rotSeries e₁ 1 ∧
    vec2rotSeries e₁ 1 = !![1, 0, 0; 0, 1, -1; 0, 1, 1] ∧
    (vec2rotSeries e₁ 1).transpose * vec2rotSeries e₁ 1 ≠ 1 ∧
    |1 - (vec2rotSeries e₁ 1).det| > detTol := by
  have hval : vec2rotSeries e₁ 1 = !![1, 0, 0; 0, 1, -1; 0, 1, 1] := by
    unfold vec2rotSeries
    rw [Finset.sum_range_succ, Finset.sum_range_one]
    have h0 : hatQ e₁ ^ 0 = (1 : Mat3) := pow_zero _
    have h1 : hatQ e₁ ^ 1 = hatQ e₁ := pow_one _
    rw [h0, h1]
    have he : hatQ e₁ = !![0, 0, 0; 0, 0, -1; 0, 1, 0] := by
      unfold hatQ e₁
      norm_num
    rw [he, Matrix.one_fin_three]
    ext i j
    fin_cases i <;> fin_cases j <;>
      norm_num [Nat.factorial, Matrix.smul_apply, Matrix.add_apply]
  refine ⟨fun _ _ _ => rfl, rfl, hval, ?_, ?_⟩
  · rw [hval]
    have hT : (!![1, 0, 0; 0, 1, -1; 0, 1, 1] : Mat3).transpose =
        !![1, 0, 0; 0, 1, 1; 0, -1, 1] := by
      ext i j; fin_cases i <;> fin_cases j <;> rfl
    rw [hT, Matrix.one_fin_three]
    norm_num [Matrix.mul_fin_three]
    intro hc
    have := congrFun (congrFun hc 1) 1
    norm_num at this
  · rw [hval]
    norm_num [Matrix.det_fin_three, detTol, Matrix.vecHead, Matrix.vecTail]

end LgRot

namespace LgRot

/-! ## Real-side helper lemmas -/

lemma norm3_nonneg (v : Vec3R) : 0 ≤ norm3 v := Real.sqrt_nonneg _

lemma sq_norm3 (v : Vec3R) : norm3 v ^ 2 = v 0 ^ 2 + v 1 ^ 2 + v 2 ^ 2 :=
  Real.sq_sqrt (by positivity)

lemma norm3_eq_zero_iff (v : Vec3R) : norm3 v = 0 ↔ v = 0 := by
  constructor
  · intro h
    have h2 : v 0 ^ 2 + v 1 ^ 2 + v 2 ^ 2 = 0 := by
      have hs := sq_norm3 v
      rw [h] at hs
      linarith [hs]
    have e0 : v 0 = 0 := by nlinarith [sq_nonneg (v 0), sq_nonneg (v 1), sq_nonneg (v 2)]
    have e1 : v 1 = 0 := by nlinarith [sq_nonneg (v 0), sq_nonneg (v 1), sq_nonneg (v 2)]
    have e2 : v 2 = 0 := by nlinarith [sq_nonneg (v 0), sq_nonneg (v 1), sq_nonneg (v 2)]
    funext i
    fin_cases i
    · simpa using e0
    · simpa using e1
    · simpa using e2
  · intro h
    rw [h]
    unfold norm3
    norm_num

lemma clamp1_eq_self {x : ℝ} (h1 : -1 ≤ x) (h2 : x ≤ 1) : clamp1 x = x := by
  unfold clamp1
  rw [min_eq_right h2, max_eq_right h1]

lemma outerR_apply (a b : Vec3R) (i j : Fin 3) : outerR a b i j = a i * b j := by
  fin_cases i <;> fin_cases j <;> simp [outerR]

lemma expMapR_zero_norm {φ : Vec3R} (h : norm3 φ = 0) : expMapR φ = 1 := by
  unfold expMapR
  rw [if_pos h]

lemma expMapR_apply {φ : Vec3R} (h : norm3 φ ≠ 0) (i j : Fin 3) :
    expMapR φ i j =
      Real.cos (norm3 φ) * (if i = j then 1 else 0)
        + (1 - Real.cos (norm3 φ)) * (((norm3 φ)⁻¹ • φ) i * ((norm3 φ)⁻¹ • φ) j)
        + Real.sin (norm3 φ) * hatR ((norm3 φ)⁻¹ • φ) i j := by
  unfold expMapR
  rw [if_neg h]
  simp [Matrix.add_apply, Matrix.smul_apply, Matrix.one_apply, outerR_apply,
    smul_eq_mul]

end LgRot

namespace LgRot

lemma axis_sq_sum {φ : Vec3R} (h : norm3 φ ≠ 0) :
    ((norm3 φ)⁻¹ • φ) 0 ^ 2 + ((norm3 φ)⁻¹ • φ) 1 ^ 2 + ((norm3 φ)⁻¹ • φ) 2 ^ 2 = 1 := by
  have hs := sq_norm3 φ
  simp only [Pi.smul_apply, smul_eq_mul]
  have hrw : ((norm3 φ)⁻¹ * φ 0) ^ 2 + ((norm3 φ)⁻¹ * φ 1) ^ 2 + ((norm3 φ)⁻¹ * φ 2) ^ 2
      = (norm3 φ)⁻¹ ^ 2 * (φ 0 ^ 2 + φ 1 ^ 2 + φ 2 ^ 2) := by ring
  rw [hrw, ← hs]
  field_simp

lemma trace_expMapR {φ : Vec3R} (h : norm3 φ ≠ 0) :
    Matrix.trace (expMapR φ) = 1 + 2 * Real.cos (norm3 φ) := by
  have ha := axis_sq_sum h
  rw [Matrix.trace_fin_three, expMapR_apply h 0 0, expMapR_apply h 1 1,
    expMapR_apply h 2 2]
  have h00 : hatR ((norm3 φ)⁻¹ • φ) 0 0 = 0 := by simp [hatR]
  have h11 : hatR ((norm3 φ)⁻¹ • φ) 1 1 = 0 := by simp [hatR]
  have h22 : hatR ((norm3 φ)⁻¹ • φ) 2 2 = 0 := by simp [hatR]
  rw [h00, h11, h22]
  simp only [Pi.smul_apply, smul_eq_mul] at ha ⊢
  norm_num
  linear_combination (1 - Real.cos (norm3 φ)) * ha

lemma cosθof_expMapR {φ : Vec3R} (h : norm3 φ ≠ 0) :
    cosθof (expMapR φ) = Real.cos (norm3 φ) := by
  unfold cosθof
  rw [trace_expMapR h]
  have hrw : (1 + 2 * Real.cos (norm3 φ) - 1) / 2 = Real.cos (norm3 φ) := by ring
  rw [hrw]
  exact clamp1_eq_self (Real.neg_one_le_cos _) (Real.cos_le_one _)

lemma θof_expMapR {φ : Vec3R} (hle : norm3 φ ≤ Real.pi) (h : norm3 φ ≠ 0) :
    θof (expMapR φ) = norm3 φ := by
  unfold θof
  rw [cosθof_expMapR h]
  exact Real.arccos_cos (norm3_nonneg φ) hle

lemma logMapR_one : logMapR 1 = 0 := by
  have htr : Matrix.trace (1 : Mat3R) = 3 := by
    rw [Matrix.trace_fin_three]
    norm_num [Matrix.one_apply]
  have hc : cosθof (1 : Mat3R) = 1 := by
    unfold cosθof
    rw [htr]
    norm_num [clamp1]
  have hθ : θof (1 : Mat3R) = 0 := by
    unfold θof
    rw [hc]
    exact Real.arccos_one
  unfold logMapR
  rw [if_pos hθ]
  funext i
  rw [Matrix.transpose_one, sub_self, smul_zero]
  fin_cases i <;> simp [vexR]

lemma log_exp_eq {φ : Vec3R} (h : norm3 φ < Real.pi) : logMapR (expMapR φ) = φ := by
  by_cases h0 : norm3 φ = 0
  · rw [expMapR_zero_norm h0, logMapR_one]
    exact ((norm3_eq_zero_iff φ).1 h0).symm
  · have hpos : 0 < norm3 φ := lt_of_le_of_ne (norm3_nonneg φ) (Ne.symm h0)
    have hθ := θof_expMapR h.le h0
    have hs : 0 < Real.sin (norm3 φ) := Real.sin_pos_of_pos_of_lt_pi hpos h
    have hE21 : expMapR φ 2 1 - expMapR φ 1 2
        = 2 * Real.sin (norm3 φ) * ((norm3 φ)⁻¹ * φ 0) := by
      rw [expMapR_apply h0 2 1, expMapR_apply h0 1 2]
      simp [hatR, Pi.smul_apply, smul_eq_mul]
      ring
    have hE02 : expMapR φ 0 2 - expMapR φ 2 0
        = 2 * Real.sin (norm3 φ) * ((norm3 φ)⁻¹ * φ 1) := by
      rw [expMapR_apply h0 0 2, expMapR_apply h0 2 0]
      simp [hatR, Pi.smul_apply, smul_eq_mul]
      ring
    have hE10 : expMapR φ 1 0 - expMapR φ 0 1
        = 2 * Real.sin (norm3 φ) * ((norm3 φ)⁻¹ * φ 2) := by
      rw [expMapR_apply h0 1 0, expMapR_apply h0 0 1]
      simp [hatR, Pi.smul_apply, smul_eq_mul]
      ring
    unfold logMapR
    rw [if_neg (by rw [hθ]; exact ne_of_gt hpos),
      if_neg (by rw [hθ]; exact ne_of_lt h), hθ]
    funext i
    fin_cases i
    · show (norm3 φ / (2 * Real.sin (norm3 φ)))
        * vexR (expMapR φ - (expMapR φ).transpose) 0 = φ 0
      have hv : vexR (expMapR φ - (expMapR φ).transpose) 0
          = expMapR φ 2 1 - expMapR φ 1 2 := by
        simp [vexR, Matrix.sub_apply, Matrix.transpose_apply]
      rw [hv, hE21]
      field_simp
      ring
    · show (norm3 φ / (2 * Real.sin (norm3 φ)))
        * vexR (expMapR φ - (expMapR φ).transpose) 1 = φ 1
      have hv : vexR (expMapR φ - (expMapR φ).transpose) 1
          = expMapR φ 0 2 - expMapR φ 2 0 := by
        simp [vexR, Matrix.sub_apply, Matrix.transpose_apply]
      rw [hv, hE02]
      field_simp
      ring
    · show (norm3 φ / (2 * Real.sin (norm3 φ)))
        * vexR (expMapR φ - (expMapR φ).transpose) 2 = φ 2
      have hv : vexR (expMapR φ - (expMapR φ).transpose) 2
          = expMapR φ 1 0 - expMapR φ 0 1 := by
        simp [vexR, Matrix.sub_apply, Matrix.transpose_apply]
      rw [hv, hE10]
      field_simp
      ring

end LgRot

namespace LgRot

lemma so3_right_inv {C : Mat3R} (hC : C.transpose * C = 1) : C * C.transpose = 1 :=
  Matrix.mul_eq_one_comm.mp hC

lemma so3_adjugate {C : Mat3R} (hC : C.transpose * C = 1) (hdet : C.det = 1) :
    C.adjugate = C.transpose := by
  have h1 : C * C.adjugate = 1 := by rw [Matrix.mul_adjugate, hdet, one_smul]
  calc C.adjugate = (C.transpose * C) * C.adjugate := by rw [hC, Matrix.one_mul]
    _ = C.transpose * (C * C.adjugate) := by rw [Matrix.mul_assoc]
    _ = C.transpose := by rw [h1, Matrix.mul_one]

/-- For `C ∈ SO(3)`, the outer product of `w = vex(C − Cᵀ)` with itself is
determined by the symmetric part of `C`:
`(tr C + 1)·(C i j + C j i − (tr C − 1)·δᵢⱼ) = wᵢ·wⱼ`, written out as six
scalar identities. -/
lemma so3_wwT {C : Mat3R} (hC : C.transpose * C = 1) (hdet : C.det = 1) :
    ((Matrix.trace C + 1) * (2 * C 0 0 - (Matrix.trace C - 1)) = (C 2 1 - C 1 2) ^ 2)
    ∧ ((Matrix.trace C + 1) * (2 * C 1 1 - (Matrix.trace C - 1)) = (C 0 2 - C 2 0) ^ 2)
    ∧ ((Matrix.trace C + 1) * (2 * C 2 2 - (Matrix.trace C - 1)) = (C 1 0 - C 0 1) ^ 2)
    ∧ ((Matrix.trace C + 1) * (C 0 1 + C 1 0) = (C 2 1 - C 1 2) * (C 0 2 - C 2 0))
    ∧ ((Matrix.trace C + 1) * (C 0 2 + C 2 0) = (C 2 1 - C 1 2) * (C 1 0 - C 0 1))
    ∧ ((Matrix.trace C + 1) * (C 1 2 + C 2 1) = (C 0 2 - C 2 0) * (C 1 0 - C 0 1)) := by
  have hCCt := so3_right_inv hC
  have col : ∀ a b : Fin 3,
      C 0 a * C 0 b + C 1 a * C 1 b + C 2 a * C 2 b = if a = b then 1 else 0 := by
    intro a b
    have h : (C.transpose * C) a b = (1 : Mat3R) a b := by rw [hC]
    simpa [Matrix.mul_apply, Matrix.transpose_apply, Fin.sum_univ_three,
      Matrix.one_apply] using h
  have row : ∀ a b : Fin 3,
      C a 0 * C b 0 + C a 1 * C b 1 + C a 2 * C b 2 = if a = b then 1 else 0 := by
    intro a b
    have h : (C * C.transpose) a b = (1 : Mat3R) a b := by rw [hCCt]
    simpa [Matrix.mul_apply, Matrix.transpose_apply, Fin.sum_univ_three,
      Matrix.one_apply] using h
  have col00 : C 0 0 * C 0 0 + C 1 0 * C 1 0 + C 2 0 * C 2 0 = 1 := by simpa using col 0 0
  have col11 : C 0 1 * C 0 1 + C 1 1 * C 1 1 + C 2 1 * C 2 1 = 1 := by simpa using col 1 1
  have col22 : C 0 2 * C 0 2 + C 1 2 * C 1 2 + C 2 2 * C 2 2 = 1 := by simpa using col 2 2
  have col01 : C 0 0 * C 0 1 + C 1 0 * C 1 1 + C 2 0 * C 2 1 = 0 := by simpa using col 0 1
  have col02 : C 0 0 * C 0 2 + C 1 0 * C 1 2 + C 2 0 * C 2 2 = 0 := by simpa using col 0 2
  have col12 : C 0 1 * C 0 2 + C 1 1 * C 1 2 + C 2 1 * C 2 2 = 0 := by simpa using col 1 2
  have row00 : C 0 0 * C 0 0 + C 0 1 * C 0 1 + C 0 2 * C 0 2 = 1 := by simpa using row 0 0
  have row11 : C 1 0 * C 1 0 + C 1 1 * C 1 1 + C 1 2 * C 1 2 = 1 := by simpa using row 1 1
  have row01 : C 0 0 * C 1 0 + C 0 1 * C 1 1 + C 0 2 * C 1 2 = 0 := by simpa using row 0 1
  have row02 : C 0 0 * C 2 0 + C 0 1 * C 2 1 + C 0 2 * C 2 2 = 0 := by simpa using row 0 2
  have row12 : C 1 0 * C 2 0 + C 1 1 * C 2 1 + C 1 2 * C 2 2 = 0 := by simpa using row 1 2
  have hadj := so3_adjugate hC hdet
  rw [Matrix.adjugate_fin_three] at hadj
  have entry : ∀ a b : Fin 3,
      (!![C 1 1 * C 2 2 - C 1 2 * C 2 1, -(C 0 1 * C 2 2) + C 0 2 * C 2 1,
          C 0 1 * C 1 2 - C 0 2 * C 1 1;
          -(C 1 0 * C 2 2) + C 1 2 * C 2 0, C 0 0 * C 2 2 - C 0 2 * C 2 0,
          -(C 0 0 * C 1 2) + C 0 2 * C 1 0;
          C 1 0 * C 2 1 - C 1 1 * C 2 0, -(C 0 0 * C 2 1) + C 0 1 * C 2 0,
          C 0 0 * C 1 1 - C 0 1 * C 1 0] : Mat3R) a b = C b a := by
    intro a b
    have h : (!![C 1 1 * C 2 2 - C 1 2 * C 2 1, -(C 0 1 * C 2 2) + C 0 2 * C 2 1,
        C 0 1 * C 1 2 - C 0 2 * C 1 1;
        -(C 1 0 * C 2 2) + C 1 2 * C 2 0, C 0 0 * C 2 2 - C 0 2 * C 2 0,
        -(C 0 0 * C 1 2) + C 0 2 * C 1 0;
        C 1 0 * C 2 1 - C 1 1 * C 2 0, -(C 0 0 * C 2 1) + C 0 1 * C 2 0,
        C 0 0 * C 1 1 - C 0 1 * C 1 0] : Mat3R) a b = C.transpose a b := by rw [hadj]
    simpa [Matrix.transpose_apply] using h
  have a00 : C 1 1 * C 2 2 - C 1 2 * C 2 1 = C 0 0 := by simpa using entry 0 0
  have a01 : -(C 0 1 * C 2 2) + C 0 2 * C 2 1 = C 1 0 := by simpa using entry 0 1
  have a02 : C 0 1 * C 1 2 - C 0 2 * C 1 1 = C 2 0 := by simpa using entry 0 2
  have a10 : -(C 1 0 * C 2 2) + C 1 2 * C 2 0 = C 0 1 := by simpa using entry 1 0
  have a11 : C 0 0 * C 2 2 - C 0 2 * C 2 0 = C 1 1 := by simpa using entry 1 1
  have a12 : -(C 0 0 * C 1 2) + C 0 2 * C 1 0 = C 2 1 := by simpa using entry 1 2
  have a20 : C 1 0 * C 2 1 - C 1 1 * C 2 0 = C 0 2 := by simpa using entry 2 0
  have a21 : -(C 0 0 * C 2 1) + C 0 1 * C 2 0 = C 1 2 := by simpa using entry 2 1
  have a22 : C 0 0 * C 1 1 - C 0 1 * C 1 0 = C 2 2 := by simpa using entry 2 2
  rw [Matrix.trace_fin_three]
  refine ⟨?_, ?_, ?_, ?_, ?_, ?_⟩
  · linear_combination (-1 : ℝ) * col11 - col22 + row00 - 2 * a00
  · linear_combination (-1 : ℝ) * col00 - col22 + row11 - 2 * a11
  · linear_combination col22 - row00 - row11 - 2 * a22
  · linear_combination col01 + row01 - a01 - a10
  · linear_combination col02 + row02 - a02 - a20
  · linear_combination col12 + row12 - a12 - a21

end LgRot

namespace LgRot

lemma so3_col {C : Mat3R} (hC : C.transpose * C = 1) :
    ∀ a b : Fin 3,
      C 0 a * C 0 b + C 1 a * C 1 b + C 2 a * C 2 b = if a = b then 1 else 0 := by
  intro a b
  have h : (C.transpose * C) a b = (1 : Mat3R) a b := by rw [hC]
  simpa [Matrix.mul_apply, Matrix.transpose_apply, Fin.sum_univ_three,
    Matrix.one_apply] using h

lemma so3_trace_le_three {C : Mat3R} (hC : C.transpose * C = 1) :
    Matrix.trace C ≤ 3 := by
  have col := so3_col hC
  have col00 : C 0 0 * C 0 0 + C 1 0 * C 1 0 + C 2 0 * C 2 0 = 1 := by simpa using col 0 0
  have col11 : C 0 1 * C 0 1 + C 1 1 * C 1 1 + C 2 1 * C 2 1 = 1 := by simpa using col 1 1
  have col22 : C 0 2 * C 0 2 + C 1 2 * C 1 2 + C 2 2 * C 2 2 = 1 := by simpa using col 2 2
  rw [Matrix.trace_fin_three]
  nlinarith [col00, col11, col22, sq_nonneg (C 0 0 - 1), sq_nonneg (C 1 1 - 1),
    sq_nonneg (C 2 2 - 1), sq_nonneg (C 1 0), sq_nonneg (C 2 0), sq_nonneg (C 0 1),
    sq_nonneg (C 2 1), sq_nonneg (C 0 2), sq_nonneg (C 1 2)]

lemma so3_norm_w {C : Mat3R} (hC : C.transpose * C = 1) (hdet : C.det = 1) :
    (C 2 1 - C 1 2) ^ 2 + (C 0 2 - C 2 0) ^ 2 + (C 1 0 - C 0 1) ^ 2
      = (Matrix.trace C + 1) * (3 - Matrix.trace C) := by
  obtain ⟨h1, h2, h3, _, _, _⟩ := so3_wwT hC hdet
  have htr : Matrix.trace C = C 0 0 + C 1 1 + C 2 2 := Matrix.trace_fin_three C
  linear_combination (-1 : ℝ) * h1 - h2 - h3 - 2 * (Matrix.trace C + 1) * htr

lemma so3_neg_one_le_trace {C : Mat3R} (hC : C.transpose * C = 1) (hdet : C.det = 1) :
    -1 ≤ Matrix.trace C := by
  have hw := so3_norm_w hC hdet
  have h3 := so3_trace_le_three hC
  rw [Matrix.trace_fin_three] at hw h3 ⊢
  nlinarith [sq_nonneg (C 2 1 - C 1 2), sq_nonneg (C 0 2 - C 2 0),
    sq_nonneg (C 1 0 - C 0 1)]

lemma sq_zero_of_le {x : ℝ} (h : x ^ 2 ≤ 0) : x = 0 :=
  pow_eq_zero_iff two_ne_zero |>.mp (le_antisymm h (sq_nonneg x))

lemma so3_trace_three_eq_one {C : Mat3R} (hC : C.transpose * C = 1)
    (ht : Matrix.trace C = 3) : C = 1 := by
  have col := so3_col hC
  have col00 : C 0 0 * C 0 0 + C 1 0 * C 1 0 + C 2 0 * C 2 0 = 1 := by simpa using col 0 0
  have col11 : C 0 1 * C 0 1 + C 1 1 * C 1 1 + C 2 1 * C 2 1 = 1 := by simpa using col 1 1
  have col22 : C 0 2 * C 0 2 + C 1 2 * C 1 2 + C 2 2 * C 2 2 = 1 := by simpa using col 2 2
  rw [Matrix.trace_fin_three] at ht
  have hb0 : C 0 0 ≤ 1 := by nlinarith [sq_nonneg (C 0 0 - 1), sq_nonneg (C 1 0), sq_nonneg (C 2 0)]
  have hb1 : C 1 1 ≤ 1 := by nlinarith [sq_nonneg (C 1 1 - 1), sq_nonneg (C 0 1), sq_nonneg (C 2 1)]
  have hb2 : C 2 2 ≤ 1 := by nlinarith [sq_nonneg (C 2 2 - 1), sq_nonneg (C 0 2), sq_nonneg (C 1 2)]
  have hd0 : C 0 0 = 1 := by linarith
  have hd1 : C 1 1 = 1 := by linarith
  have hd2 : C 2 2 = 1 := by linarith
  have z10 : C 1 0 = 0 := sq_zero_of_le (by nlinarith [sq_nonneg (C 2 0)])
  have z20 : C 2 0 = 0 := sq_zero_of_le (by nlinarith [sq_nonneg (C 1 0)])
  have z01 : C 0 1 = 0 := sq_zero_of_le (by nlinarith [sq_nonneg (C 2 1)])
  have z21 : C 2 1 = 0 := sq_zero_of_le (by nlinarith [sq_nonneg (C 0 1)])
  have z02 : C 0 2 = 0 := sq_zero_of_le (by nlinarith [sq_nonneg (C 1 2)])
  have z12 : C 1 2 = 0 := sq_zero_of_le (by nlinarith [sq_nonneg (C 0 2)])
  rw [Matrix.eta_fin_three C, hd0, hd1, hd2, z10, z20, z01, z21, z02, z12,
    Matrix.one_fin_three]

/-- A symmetric 3x3 matrix with `N² = 2N` and trace 2 (twice a rank-one
orthogonal projection) has all 2x2 minors zero. -/
lemma proj_rank_one (n00 n01 n02 n11 n12 n22 : ℝ)
    (h00 : n00 * n00 + n01 * n01 + n02 * n02 = 2 * n00)
    (h01 : n00 * n01 + n01 * n11 + n02 * n12 = 2 * n01)
    (h02 : n00 * n02 + n01 * n12 + n02 * n22 = 2 * n02)
    (h11 : n01 * n01 + n11 * n11 + n12 * n12 = 2 * n11)
    (h12 : n01 * n02 + n11 * n12 + n12 * n22 = 2 * n12)
    (h22 : n02 * n02 + n12 * n12 + n22 * n22 = 2 * n22)
    (htr : n00 + n11 + n22 = 2) :
    n00 * n11 = n01 ^ 2 ∧ n00 * n22 = n02 ^ 2 ∧ n11 * n22 = n12 ^ 2 ∧
    n12 * n00 = n01 * n02 ∧ n02 * n11 = n01 * n12 ∧ n01 * n22 = n02 * n12 := by
  refine ⟨?_, ?_, ?_, ?_, ?_, ?_⟩
  · linear_combination (-1 / 2 : ℝ) * h00 + (-1 / 2 : ℝ) * h11 + (1 / 2 : ℝ) * h22
      + ((n00 + n11 - n22) / 2) * htr
  · linear_combination (-1 / 2 : ℝ) * h00 + (1 / 2 : ℝ) * h11 + (-1 / 2 : ℝ) * h22
      + ((n00 - n11 + n22) / 2) * htr
  · linear_combination (1 / 2 : ℝ) * h00 + (-1 / 2 : ℝ) * h11 + (-1 / 2 : ℝ) * h22
      + ((-n00 + n11 + n22) / 2) * htr
  · linear_combination (-1 : ℝ) * h12 + n12 * htr
  · linear_combination (-1 : ℝ) * h02 + n02 * htr
  · linear_combination (-1 : ℝ) * h01 + n01 * htr

end LgRot

namespace LgRot

lemma hatR_entries (v : Vec3R) :
    hatR v 0 0 = 0 ∧ hatR v 0 1 = -v 2 ∧ hatR v 0 2 = v 1 ∧
    hatR v 1 0 = v 2 ∧ hatR v 1 1 = 0 ∧ hatR v 1 2 = -v 0 ∧
    hatR v 2 0 = -v 1 ∧ hatR v 2 1 = v 0 ∧ hatR v 2 2 = 0 := by
  refine ⟨?_, ?_, ?_, ?_, ?_, ?_, ?_, ?_, ?_⟩ <;> simp [hatR]

lemma arccos_lt_pi_of_gt {x : ℝ} (h1 : -1 < x) (h2 : x ≤ 1) :
    Real.arccos x < Real.pi := by
  rcases lt_or_eq_of_le (Real.arccos_le_pi x) with h | h
  · exact h
  · exfalso
    have hc := Real.cos_arccos (le_of_lt h1) h2
    rw [h, Real.cos_pi] at hc
    linarith

lemma exp_log_of_trace_three {C : Mat3R} (hC : C.transpose * C = 1)
    (ht : Matrix.trace C = 3) : expMapR (logMapR C) = C := by
  have h1 : C = 1 := so3_trace_three_eq_one hC ht
  rw [h1, logMapR_one, expMapR_zero_norm ((norm3_eq_zero_iff _).mpr rfl)]

lemma exp_log_generic {C : Mat3R} (hC : C.transpose * C = 1) (hdet : C.det = 1)
    (hlb : -1 < Matrix.trace C) (hub : Matrix.trace C < 3) :
    expMapR (logMapR C) = C := by
  have hcb1 : -1 ≤ (Matrix.trace C - 1) / 2 := by linarith
  have hcb1s : -1 < (Matrix.trace C - 1) / 2 := by linarith
  have hcb2 : (Matrix.trace C - 1) / 2 < 1 := by linarith
  have hcos : cosθof C = (Matrix.trace C - 1) / 2 := clamp1_eq_self hcb1 (le_of_lt hcb2)
  have hθpos : 0 < θof C := by
    unfold θof
    rw [hcos]
    exact Real.arccos_pos.mpr hcb2
  have hθpi : θof C < Real.pi := by
    unfold θof
    rw [hcos]
    exact arccos_lt_pi_of_gt hcb1s (le_of_lt hcb2)
  have hcosθ : Real.cos (θof C) = (Matrix.trace C - 1) / 2 := by
    unfold θof
    rw [hcos]
    exact Real.cos_arccos hcb1 (le_of_lt hcb2)
  have hsinpos : 0 < Real.sin (θof C) := Real.sin_pos_of_pos_of_lt_pi hθpos hθpi
  have hsne : Real.sin (θof C) ≠ 0 := ne_of_gt hsinpos
  have hs2 : Real.sin (θof C) ^ 2 = 1 - ((Matrix.trace C - 1) / 2) ^ 2 := by
    have hpy := Real.sin_sq_add_cos_sq (θof C)
    rw [hcosθ] at hpy
    linarith
  have hlog : logMapR C
      = (θof C / (2 * Real.sin (θof C))) • vexR (C - C.transpose) := by
    unfold logMapR
    rw [if_neg (ne_of_gt hθpos), if_neg (ne_of_lt hθpi)]
  have hv0 : vexR (C - C.transpose) 0 = C 2 1 - C 1 2 := by
    simp [vexR, Matrix.sub_apply, Matrix.transpose_apply]
  have hv1 : vexR (C - C.transpose) 1 = C 0 2 - C 2 0 := by
    simp [vexR, Matrix.sub_apply, Matrix.transpose_apply]
  have hv2 : vexR (C - C.transpose) 2 = C 1 0 - C 0 1 := by
    simp [vexR, Matrix.sub_apply, Matrix.transpose_apply]
  have hlogi : ∀ i, logMapR C i
      = (θof C / (2 * Real.sin (θof C))) * vexR (C - C.transpose) i := by
    intro i
    rw [hlog]
    simp [Pi.smul_apply, smul_eq_mul]
  have hww := so3_wwT hC hdet
  obtain ⟨d0, d1, d2, o01, o02, o12⟩ := hww
  have hnw : (C 2 1 - C 1 2) ^ 2 + (C 0 2 - C 2 0) ^ 2 + (C 1 0 - C 0 1) ^ 2
      = 4 * Real.sin (θof C) ^ 2 := by
    have h := so3_norm_w hC hdet
    linear_combination h - 4 * hs2
  have hsum : logMapR C 0 ^ 2 + logMapR C 1 ^ 2 + logMapR C 2 ^ 2 = θof C ^ 2 := by
    rw [hlogi 0, hlogi 1, hlogi 2, hv0, hv1, hv2]
    field_simp
    linear_combination (θof C ^ 2) * hnw
  have hnφ : norm3 (logMapR C) = θof C := by
    unfold norm3
    rw [hsum]
    exact Real.sqrt_sq (le_of_lt hθpos)
  have hnφne : norm3 (logMapR C) ≠ 0 := by
    rw [hnφ]
    exact ne_of_gt hθpos
  have haxis : ∀ i, ((θof C)⁻¹ • logMapR C) i
      = vexR (C - C.transpose) i / (2 * Real.sin (θof C)) := by
    intro i
    simp only [Pi.smul_apply, smul_eq_mul]
    rw [hlogi i]
    field_simp [ne_of_gt hθpos]
  have e00 : expMapR (logMapR C) 0 0 = C 0 0 := by
    rw [expMapR_apply hnφne 0 0, hnφ, haxis 0, (hatR_entries _).1, hv0]
    norm_num
    field_simp
    linear_combination (4 * (Real.cos (θof C) - C 0 0)) * hs2
      + (2 + 2 * Real.cos (θof C) + 2 * Matrix.trace C - 4 * C 0 0
          - 4 * Real.cos (θof C) ^ 2 - 2 * Real.cos (θof C) * Matrix.trace C
          + 4 * Real.cos (θof C) * C 0 0) * hcosθ
      + (Real.cos (θof C) - 1) * d0
      + (-2 * (C 0 0 - Real.cos (θof C))
          * (Matrix.trace C - 1 + 2 * Real.cos (θof C))) * hcosθ
  have e11 : expMapR (logMapR C) 1 1 = C 1 1 := by
    rw [expMapR_apply hnφne 1 1, hnφ, haxis 1, (hatR_entries _).2.2.2.2.1, hv1]
    norm_num
    field_simp
    linear_combination (4 * (Real.cos (θof C) - C 1 1)) * hs2
      + (2 + 2 * Real.cos (θof C) + 2 * Matrix.trace C - 4 * C 1 1
          - 4 * Real.cos (θof C) ^ 2 - 2 * Real.cos (θof C) * Matrix.trace C
          + 4 * Real.cos (θof C) * C 1 1) * hcosθ
      + (Real.cos (θof C) - 1) * d1
      + (-2 * (C 1 1 - Real.cos (θof C))
          * (Matrix.trace C - 1 + 2 * Real.cos (θof C))) * hcosθ
  have e22 : expMapR (logMapR C) 2 2 = C 2 2 := by
    rw [expMapR_apply hnφne 2 2, hnφ, haxis 2, (hatR_entries _).2.2.2.2.2.2.2.2, hv2]
    norm_num
    field_simp
    linear_combination (4 * (Real.cos (θof C) - C 2 2)) * hs2
      + (2 + 2 * Real.cos (θof C) + 2 * Matrix.trace C - 4 * C 2 2
          - 4 * Real.cos (θof C) ^ 2 - 2 * Real.cos (θof C) * Matrix.trace C
          + 4 * Real.cos (θof C) * C 2 2) * hcosθ
      + (Real.cos (θof C) - 1) * d2
      + (-2 * (C 2 2 - Real.cos (θof C))
          * (Matrix.trace C - 1 + 2 * Real.cos (θof C))) * hcosθ
  have e01 : expMapR (logMapR C) 0 1 = C 0 1 := by
    rw [expMapR_apply hnφne 0 1, hnφ, haxis 0, haxis 1, (hatR_entries _).2.1,
      haxis 2, hv0, hv1, hv2]
    norm_num
    field_simp
    linear_combination (-2 * Real.sin (θof C) * (1 - Real.cos (θof C))) * o01
      + (-4 * Real.sin (θof C) * (C 0 1 + C 1 0) * (1 - Real.cos (θof C))) * hcosθ
      + (-4 * Real.sin (θof C) * (C 0 1 + C 1 0)) * hs2
      + (-2 * Real.sin (θof C) * (C 0 1 + C 1 0)
          * (Matrix.trace C - 1 + 2 * Real.cos (θof C))) * hcosθ
  have e10 : expMapR (logMapR C) 1 0 = C 1 0 := by
    rw [expMapR_apply hnφne 1 0, hnφ, haxis 1, haxis 0, (hatR_entries _).2.2.2.1,
      haxis 2, hv0, hv1, hv2]
    norm_num
    field_simp
    linear_combination (-2 * Real.sin (θof C) * (1 - Real.cos (θof C))) * o01
      + (-4 * Real.sin (θof C) * (C 0 1 + C 1 0) * (1 - Real.cos (θof C))) * hcosθ
      + (-4 * Real.sin (θof C) * (C 0 1 + C 1 0)) * hs2
      + (-2 * Real.sin (θof C) * (C 0 1 + C 1 0)
          * (Matrix.trace C - 1 + 2 * Real.cos (θof C))) * hcosθ
  have e02 : expMapR (logMapR C) 0 2 = C 0 2 := by
    rw [expMapR_apply hnφne 0 2, hnφ, haxis 0, haxis 2, (hatR_entries _).2.2.1,
      haxis 1, hv0, hv1, hv2]
    norm_num [Fin.ext_iff]
    field_simp
    linear_combination (-2 * Real.sin (θof C) * (1 - Real.cos (θof C))) * o02
      + (-4 * Real.sin (θof C) * (C 0 2 + C 2 0) * (1 - Real.cos (θof C))) * hcosθ
      + (-4 * Real.sin (θof C) * (C 0 2 + C 2 0)) * hs2
      + (-2 * Real.sin (θof C) * (C 0 2 + C 2 0)
          * (Matrix.trace C - 1 + 2 * Real.cos (θof C))) * hcosθ
  have e20 : expMapR (logMapR C) 2 0 = C 2 0 := by
    rw [expMapR_apply hnφne 2 0, hnφ, haxis 2, haxis 0, (hatR_entries _).2.2.2.2.2.2.1,
      haxis 1, hv0, hv1, hv2]
    norm_num [Fin.ext_iff]
    field_simp
    linear_combination (-2 * Real.sin (θof C) * (1 - Real.cos (θof C))) * o02
      + (-4 * Real.sin (θof C) * (C 0 2 + C 2 0) * (1 - Real.cos (θof C))) * hcosθ
      + (-4 * Real.sin (θof C) * (C 0 2 + C 2 0)) * hs2
      + (-2 * Real.sin (θof C) * (C 0 2 + C 2 0)
          * (Matrix.trace C - 1 + 2 * Real.cos (θof C))) * hcosθ
  have e12 : expMapR (logMapR C) 1 2 = C 1 2 := by
    rw [expMapR_apply hnφne 1 2, hnφ, haxis 1, haxis 2, (hatR_entries _).2.2.2.2.2.1,
      haxis 0, hv0, hv1, hv2]
    norm_num [Fin.ext_iff]
    field_simp
    linear_combination (-2 * Real.sin (θof C) * (1 - Real.cos (θof C))) * o12
      + (-4 * Real.sin (θof C) * (C 1 2 + C 2 1) * (1 - Real.cos (θof C))) * hcosθ
      + (-4 * Real.sin (θof C) * (C 1 2 + C 2 1)) * hs2
      + (-2 * Real.sin (θof C) * (C 1 2 + C 2 1)
          * (Matrix.trace C - 1 + 2 * Real.cos (θof C))) * hcosθ
  have e21 : expMapR (logMapR C) 2 1 = C 2 1 := by
    rw [expMapR_apply hnφne 2 1, hnφ, haxis 2, haxis 1, (hatR_entries _).2.2.2.2.2.2.2.1,
      haxis 0, hv0, hv1, hv2]
    norm_num [Fin.ext_iff]
    field_simp
    linear_combination (-2 * Real.sin (θof C) * (1 - Real.cos (θof C))) * o12
      + (-4 * Real.sin (θof C) * (C 1 2 + C 2 1) * (1 - Real.cos (θof C))) * hcosθ
      + (-4 * Real.sin (θof C) * (C 1 2 + C 2 1)) * hs2
      + (-2 * Real.sin (θof C) * (C 1 2 + C 2 1)
          * (Matrix.trace C - 1 + 2 * Real.cos (θof C))) * hcosθ
  rw [Matrix.eta_fin_three (expMapR (logMapR C)), e00, e01, e02, e10, e11, e12,
    e20, e21, e22]
  exact (Matrix.eta_fin_three C).symm

end LgRot

namespace LgRot

lemma piAxisIdx_max (N : Mat3R) :
    N 0 0 ≤ N (piAxisIdx N) (piAxisIdx N) ∧ N 1 1 ≤ N (piAxisIdx N) (piAxisIdx N)
      ∧ N 2 2 ≤ N (piAxisIdx N) (piAxisIdx N) := by
  unfold piAxisIdx
  split_ifs with h1 h2
  · exact ⟨le_refl _, h1.1, h1.2⟩
  · push_neg at h1
    refine ⟨?_, le_refl _, h2⟩
    rcases lt_or_le (N 0 0) (N 1 1) with h | h
    · linarith
    · linarith [h1 h]
  · push_neg at h1 h2
    refine ⟨?_, le_of_lt h2, le_refl _⟩
    rcases lt_or_le (N 0 0) (N 1 1) with h | h
    · linarith
    · linarith [h1 h]

lemma axis_prod (ui uj nij d a : ℝ) (hp : ui * uj = nij * d)
    (ha2 : a ^ 2 = d / 2) (hane : a ≠ 0) :
    2 * (ui / (2 * a) * (uj / (2 * a))) = nij := by
  field_simp
  linear_combination 2 * hp + (-4 * nij) * ha2

lemma pi_log_normsq (u0 u1 u2 d a : ℝ)
    (hu : u0 * u0 + u1 * u1 + u2 * u2 = 2 * d)
    (ha2 : a ^ 2 = d / 2) (hane : a ≠ 0) :
    (Real.pi * (u0 / (2 * a))) ^ 2 + (Real.pi * (u1 / (2 * a))) ^ 2
      + (Real.pi * (u2 / (2 * a))) ^ 2 = Real.pi ^ 2 := by
  field_simp
  linear_combination Real.pi ^ 2 * hu + (-4 * Real.pi ^ 2) * ha2

end LgRot


namespace LgRot

set_option maxHeartbeats 2000000 in
lemma exp_log_of_trace_neg_one {C : Mat3R} (hC : C.transpose * C = 1)
    (hdet : C.det = 1) (ht : Matrix.trace C = -1) : expMapR (logMapR C) = C := by
  obtain ⟨d0, d1, d2, o01, o02, o12⟩ := so3_wwT hC hdet
  have hw0 : (C 2 1 - C 1 2) ^ 2 = 0 := by
    linear_combination (-1 : ℝ) * d0 + (2 * C 0 0 - (Matrix.trace C - 1)) * ht
  have hw1 : (C 0 2 - C 2 0) ^ 2 = 0 := by
    linear_combination (-1 : ℝ) * d1 + (2 * C 1 1 - (Matrix.trace C - 1)) * ht
  have hw2 : (C 1 0 - C 0 1) ^ 2 = 0 := by
    linear_combination (-1 : ℝ) * d2 + (2 * C 2 2 - (Matrix.trace C - 1)) * ht
  have hs21 : C 2 1 = C 1 2 := sub_eq_zero.mp (pow_eq_zero_iff two_ne_zero |>.mp hw0)
  have hs02 : C 0 2 = C 2 0 := sub_eq_zero.mp (pow_eq_zero_iff two_ne_zero |>.mp hw1)
  have hs10 : C 1 0 = C 0 1 := sub_eq_zero.mp (pow_eq_zero_iff two_ne_zero |>.mp hw2)
  have hCt : C.transpose = C := by
    rw [Matrix.eta_fin_three C.transpose]
    simp only [Matrix.transpose_apply]
    conv_rhs => rw [Matrix.eta_fin_three C]
    rw [hs10, hs21, hs02]
  have hCC : C * C = 1 := by
    have h := so3_right_inv hC
    rw [hCt] at h
    exact h
  have hc : cosθof C = -1 := by
    unfold cosθof
    rw [ht]
    norm_num [clamp1]
  have hθ : θof C = Real.pi := by
    unfold θof
    rw [hc]
    exact Real.arccos_neg_one
  have hθne : θof C ≠ 0 := by
    rw [hθ]
    exact Real.pi_ne_zero
  have hNmat : piN C = C + 1 := by
    unfold piN
    rw [hCt, hc]
    rw [show C + C = (2 : ℝ) • C from (two_smul ℝ C).symm, smul_smul]
    norm_num
  have hNN : (C + 1) * (C + 1) = (2 : ℝ) • (C + 1) := by
    have hexp : (C + 1) * (C + 1) = C * C + C + C + 1 := by noncomm_ring
    rw [hexp, hCC, two_smul]
    abel
  have hent : ∀ a b : Fin 3, ((C + 1) * (C + 1)) a b = ((2 : ℝ) • (C + 1)) a b := by
    intro a b
    rw [hNN]
  have h00 : (C 0 0 + 1) * (C 0 0 + 1) + C 0 1 * C 0 1 + C 0 2 * C 0 2
      = 2 * (C 0 0 + 1) := by
    have h := hent 0 0
    simp [Matrix.mul_apply, Fin.sum_univ_three, Matrix.add_apply, Matrix.one_apply,
      Matrix.smul_apply, smul_eq_mul, hs10, hs21, ← hs02] at h
    linear_combination h
  have h01 : (C 0 0 + 1) * C 0 1 + C 0 1 * (C 1 1 + 1) + C 0 2 * C 1 2
      = 2 * C 0 1 := by
    have h := hent 0 1
    simp [Matrix.mul_apply, Fin.sum_univ_three, Matrix.add_apply, Matrix.one_apply,
      Matrix.smul_apply, smul_eq_mul, hs10, hs21, ← hs02] at h
    linear_combination h
  have h02 : (C 0 0 + 1) * C 0 2 + C 0 1 * C 1 2 + C 0 2 * (C 2 2 + 1)
      = 2 * C 0 2 := by
    have h := hent 0 2
    simp [Matrix.mul_apply, Fin.sum_univ_three, Matrix.add_apply, Matrix.one_apply,
      Matrix.smul_apply, smul_eq_mul, hs10, hs21, ← hs02] at h
    linear_combination h
  have h11 : C 0 1 * C 0 1 + (C 1 1 + 1) * (C 1 1 + 1) + C 1 2 * C 1 2
      = 2 * (C 1 1 + 1) := by
    have h := hent 1 1
    simp [Matrix.mul_apply, Fin.sum_univ_three, Matrix.add_apply, Matrix.one_apply,
      Matrix.smul_apply, smul_eq_mul, hs10, hs21, ← hs02] at h
    linear_combination h
  have h12 : C 0 1 * C 0 2 + (C 1 1 + 1) * C 1 2 + C 1 2 * (C 2 2 + 1)
      = 2 * C 1 2 := by
    have h := hent 1 2
    simp [Matrix.mul_apply, Fin.sum_univ_three, Matrix.add_apply, Matrix.one_apply,
      Matrix.smul_apply, smul_eq_mul, hs10, hs21, ← hs02] at h
    linear_combination h
  have h22 : C 0 2 * C 0 2 + C 1 2 * C 1 2 + (C 2 2 + 1) * (C 2 2 + 1)
      = 2 * (C 2 2 + 1) := by
    have h := hent 2 2
    simp [Matrix.mul_apply, Fin.sum_univ_three, Matrix.add_apply, Matrix.one_apply,
      Matrix.smul_apply, smul_eq_mul, hs10, hs21, ← hs02] at h
    linear_combination h
  have htrN : (C 0 0 + 1) + (C 1 1 + 1) + (C 2 2 + 1) = 2 := by
    have h := Matrix.trace_fin_three C
    rw [ht] at h
    linarith
  obtain ⟨m01, m02, m12, x0, x1, x2⟩ :=
    proj_rank_one (C 0 0 + 1) (C 0 1) (C 0 2) (C 1 1 + 1) (C 1 2) (C 2 2 + 1)
      h00 h01 h02 h11 h12 h22 htrN
  have hlog : logMapR C = fun i => θof C *
      (piN C i (piAxisIdx (piN C)) /
        (2 * Real.sqrt (piN C (piAxisIdx (piN C)) (piAxisIdx (piN C)) / 2))) := by
    unfold logMapR
    rw [if_neg hθne, if_pos hθ]
  simp only [hNmat, hθ] at hlog
  have hkmax := piAxisIdx_max (piN C)
  rw [hNmat] at hkmax
  have hD0 : (C + 1) (0 : Fin 3) 0 = C 0 0 + 1 := by
    simp [Matrix.add_apply, Matrix.one_apply]
  have hD1 : (C + 1) (1 : Fin 3) 1 = C 1 1 + 1 := by
    simp [Matrix.add_apply, Matrix.one_apply]
  have hD2 : (C + 1) (2 : Fin 3) 2 = C 2 2 + 1 := by
    simp [Matrix.add_apply, Matrix.one_apply]
  have hkk : (0 : ℝ) < (C + 1) (piAxisIdx (C + 1)) (piAxisIdx (C + 1)) := by
    have h0 := hkmax.1
    have h1 := hkmax.2.1
    have h2 := hkmax.2.2
    rw [hD0] at h0
    rw [hD1] at h1
    rw [hD2] at h2
    linarith
  have hk3 : piAxisIdx (C + 1) = 0 ∨ piAxisIdx (C + 1) = 1 ∨ piAxisIdx (C + 1) = 2 :=
    (by decide : ∀ k : Fin 3, k = 0 ∨ k = 1 ∨ k = 2) _
  rcases hk3 with hk | hk | hk
  · have hDK : (C + 1) (0 : Fin 3) 0 = C 0 0 + 1 := by
      simp [Matrix.add_apply, Matrix.one_apply]
    simp only [hk] at hlog hkk
    simp only [hDK] at hlog hkk
    have hU0 : (C + 1) (0 : Fin 3) 0 = (C 0 0 + 1) := by
      simp [Matrix.add_apply, Matrix.one_apply]
    have hU1 : (C + 1) (1 : Fin 3) 0 = (C 0 1) := by
      simp [Matrix.add_apply, Matrix.one_apply, hs10]
    have hU2 : (C + 1) (2 : Fin 3) 0 = (C 0 2) := by
      simp [Matrix.add_apply, Matrix.one_apply, ← hs02]
    have ha2 : (Real.sqrt ((C 0 0 + 1) / 2)) ^ 2 = (C 0 0 + 1) / 2 := Real.sq_sqrt (by linarith)
    have hane : (Real.sqrt ((C 0 0 + 1) / 2)) ≠ 0 := ne_of_gt (Real.sqrt_pos.mpr (by linarith))
    have hl0 : logMapR C 0 = Real.pi * ((C 0 0 + 1) / (2 * Real.sqrt ((C 0 0 + 1) / 2))) := by
      rw [hlog]
      show Real.pi * ((C + 1) (0 : Fin 3) 0 / (2 * Real.sqrt ((C 0 0 + 1) / 2))) = _
      rw [hU0]
    have hl1 : logMapR C 1 = Real.pi * ((C 0 1) / (2 * Real.sqrt ((C 0 0 + 1) / 2))) := by
      rw [hlog]
      show Real.pi * ((C + 1) (1 : Fin 3) 0 / (2 * Real.sqrt ((C 0 0 + 1) / 2))) = _
      rw [hU1]
    have hl2 : logMapR C 2 = Real.pi * ((C 0 2) / (2 * Real.sqrt ((C 0 0 + 1) / 2))) := by
      rw [hlog]
      show Real.pi * ((C + 1) (2 : Fin 3) 0 / (2 * Real.sqrt ((C 0 0 + 1) / 2))) = _
      rw [hU2]
    have hsum : logMapR C 0 ^ 2 + logMapR C 1 ^ 2 + logMapR C 2 ^ 2 = Real.pi ^ 2 := by
      rw [hl0, hl1, hl2]
      exact pi_log_normsq (C 0 0 + 1) (C 0 1) (C 0 2) (C 0 0 + 1) _ h00 ha2 hane
    have hnφ : norm3 (logMapR C) = Real.pi := by
      unfold norm3
      rw [hsum]
      exact Real.sqrt_sq (le_of_lt Real.pi_pos)
    have hnφne : norm3 (logMapR C) ≠ 0 := by
      rw [hnφ]
      exact Real.pi_ne_zero
    have hax0 : (Real.pi⁻¹ • logMapR C) 0 = (C 0 0 + 1) / (2 * Real.sqrt ((C 0 0 + 1) / 2)) := by
      simp only [Pi.smul_apply, smul_eq_mul]
      rw [hl0]
      field_simp
    have hax1 : (Real.pi⁻¹ • logMapR C) 1 = (C 0 1) / (2 * Real.sqrt ((C 0 0 + 1) / 2)) := by
      simp only [Pi.smul_apply, smul_eq_mul]
      rw [hl1]
      field_simp
    have hax2 : (Real.pi⁻¹ • logMapR C) 2 = (C 0 2) / (2 * Real.sqrt ((C 0 0 + 1) / 2)) := by
      simp only [Pi.smul_apply, smul_eq_mul]
      rw [hl2]
      field_simp
    have hp00 : (C 0 0 + 1) * (C 0 0 + 1) = (C 0 0 + 1) * (C 0 0 + 1) := by
      ring
    have hp01 : (C 0 0 + 1) * (C 0 1) = (C 0 1) * (C 0 0 + 1) := by
      ring
    have hp02 : (C 0 0 + 1) * (C 0 2) = (C 0 2) * (C 0 0 + 1) := by
      ring
    have hp11 : (C 0 1) * (C 0 1) = (C 1 1 + 1) * (C 0 0 + 1) := by
      linear_combination (-1 : ℝ) * m01
    have hp12 : (C 0 1) * (C 0 2) = (C 1 2) * (C 0 0 + 1) := by
      linear_combination (-1 : ℝ) * x0
    have hp22 : (C 0 2) * (C 0 2) = (C 2 2 + 1) * (C 0 0 + 1) := by
      linear_combination (-1 : ℝ) * m02
    have e00 : expMapR (logMapR C) 0 0 = C 0 0 := by
      have hax := axis_prod (C 0 0 + 1) (C 0 0 + 1) (C 0 0 + 1) (C 0 0 + 1) (Real.sqrt ((C 0 0 + 1) / 2)) hp00 ha2 hane
      rw [expMapR_apply hnφne 0 0, if_pos (rfl : (0 : Fin 3) = 0), hnφ, Real.cos_pi, Real.sin_pi, hax0]
      linear_combination hax
    have e01 : expMapR (logMapR C) 0 1 = C 0 1 := by
      have hax := axis_prod (C 0 0 + 1) (C 0 1) (C 0 1) (C 0 0 + 1) (Real.sqrt ((C 0 0 + 1) / 2)) hp01 ha2 hane
      rw [expMapR_apply hnφne 0 1, if_neg (by decide : ¬ (0 : Fin 3) = 1), hnφ, Real.cos_pi, Real.sin_pi, hax0, hax1]
      linear_combination hax
    have e02 : expMapR (logMapR C) 0 2 = C 0 2 := by
      have hax := axis_prod (C 0 0 + 1) (C 0 2) (C 0 2) (C 0 0 + 1) (Real.sqrt ((C 0 0 + 1) / 2)) hp02 ha2 hane
      rw [expMapR_apply hnφne 0 2, if_neg (by decide : ¬ (0 : Fin 3) = 2), hnφ, Real.cos_pi, Real.sin_pi, hax0, hax2]
      linear_combination hax
    have e10 : expMapR (logMapR C) 1 0 = C 1 0 := by
      have hax := axis_prod (C 0 1) (C 0 0 + 1) (C 0 1) (C 0 0 + 1) (Real.sqrt ((C 0 0 + 1) / 2)) (by linear_combination hp01 : (C 0 1) * (C 0 0 + 1) = (C 0 1) * (C 0 0 + 1)) ha2 hane
      rw [expMapR_apply hnφne 1 0, if_neg (by decide : ¬ (1 : Fin 3) = 0), hnφ, Real.cos_pi, Real.sin_pi, hax1, hax0, hs10]
      linear_combination hax
    have e11 : expMapR (logMapR C) 1 1 = C 1 1 := by
      have hax := axis_prod (C 0 1) (C 0 1) (C 1 1 + 1) (C 0 0 + 1) (Real.sqrt ((C 0 0 + 1) / 2)) hp11 ha2 hane
      rw [expMapR_apply hnφne 1 1, if_pos (rfl : (1 : Fin 3) = 1), hnφ, Real.cos_pi, Real.sin_pi, hax1]
      linear_combination hax
    have e12 : expMapR (logMapR C) 1 2 = C 1 2 := by
      have hax := axis_prod (C 0 1) (C 0 2) (C 1 2) (C 0 0 + 1) (Real.sqrt ((C 0 0 + 1) / 2)) hp12 ha2 hane
      rw [expMapR_apply hnφne 1 2, if_neg (by decide : ¬ (1 : Fin 3) = 2), hnφ, Real.cos_pi, Real.sin_pi, hax1, hax2]
      linear_combination hax
    have e20 : expMapR (logMapR C) 2 0 = C 2 0 := by
      have hax := axis_prod (C 0 2) (C 0 0 + 1) (C 0 2) (C 0 0 + 1) (Real.sqrt ((C 0 0 + 1) / 2)) (by linear_combination hp02 : (C 0 2) * (C 0 0 + 1) = (C 0 2) * (C 0 0 + 1)) ha2 hane
      rw [expMapR_apply hnφne 2 0, if_neg (by decide : ¬ (2 : Fin 3) = 0), hnφ, Real.cos_pi, Real.sin_pi, hax2, hax0, ← hs02]
      linear_combination hax
    have e21 : expMapR (logMapR C) 2 1 = C 2 1 := by
      have hax := axis_prod (C 0 2) (C 0 1) (C 1 2) (C 0 0 + 1) (Real.sqrt ((C 0 0 + 1) / 2)) (by linear_combination hp12 : (C 0 2) * (C 0 1) = (C 1 2) * (C 0 0 + 1)) ha2 hane
      rw [expMapR_apply hnφne 2 1, if_neg (by decide : ¬ (2 : Fin 3) = 1), hnφ, Real.cos_pi, Real.sin_pi, hax2, hax1, hs21]
      linear_combination hax
    have e22 : expMapR (logMapR C) 2 2 = C 2 2 := by
      have hax := axis_prod (C 0 2) (C 0 2) (C 2 2 + 1) (C 0 0 + 1) (Real.sqrt ((C 0 0 + 1) / 2)) hp22 ha2 hane
      rw [expMapR_apply hnφne 2 2, if_pos (rfl : (2 : Fin 3) = 2), hnφ, Real.cos_pi, Real.sin_pi, hax2]
      linear_combination hax
    rw [Matrix.eta_fin_three (expMapR (logMapR C)), e00, e01, e02, e10, e11,
      e12, e20, e21, e22]
    exact (Matrix.eta_fin_three C).symm
  · have hDK : (C + 1) (1 : Fin 3) 1 = C 1 1 + 1 := by
      simp [Matrix.add_apply, Matrix.one_apply]
    simp only [hk] at hlog hkk
    simp only [hDK] at hlog hkk
    have hU0 : (C + 1) (0 : Fin 3) 1 = (C 0 1) := by
      simp [Matrix.add_apply, Matrix.one_apply]
    have hU1 : (C + 1) (1 : Fin 3) 1 = (C 1 1 + 1) := by
      simp [Matrix.add_apply, Matrix.one_apply]
    have hU2 : (C + 1) (2 : Fin 3) 1 = (C 1 2) := by
      simp [Matrix.add_apply, Matrix.one_apply, hs21]
    have ha2 : (Real.sqrt ((C 1 1 + 1) / 2)) ^ 2 = (C 1 1 + 1) / 2 := Real.sq_sqrt (by linarith)
    have hane : (Real.sqrt ((C 1 1 + 1) / 2)) ≠ 0 := ne_of_gt (Real.sqrt_pos.mpr (by linarith))
    have hl0 : logMapR C 0 = Real.pi * ((C 0 1) / (2 * Real.sqrt ((C 1 1 + 1) / 2))) := by
      rw [hlog]
      show Real.pi * ((C + 1) (0 : Fin 3) 1 / (2 * Real.sqrt ((C 1 1 + 1) / 2))) = _
      rw [hU0]
    have hl1 : logMapR C 1 = Real.pi * ((C 1 1 + 1) / (2 * Real.sqrt ((C 1 1 + 1) / 2))) := by
      rw [hlog]
      show Real.pi * ((C + 1) (1 : Fin 3) 1 / (2 * Real.sqrt ((C 1 1 + 1) / 2))) = _
      rw [hU1]
    have hl2 : logMapR C 2 = Real.pi * ((C 1 2) / (2 * Real.sqrt ((C 1 1 + 1) / 2))) := by
      rw [hlog]
      show Real.pi * ((C + 1) (2 : Fin 3) 1 / (2 * Real.sqrt ((C 1 1 + 1) / 2))) = _
      rw [hU2]
    have hsum : logMapR C 0 ^ 2 + logMapR C 1 ^ 2 + logMapR C 2 ^ 2 = Real.pi ^ 2 := by
      rw [hl0, hl1, hl2]
      exact pi_log_normsq (C 0 1) (C 1 1 + 1) (C 1 2) (C 1 1 + 1) _ h11 ha2 hane
    have hnφ : norm3 (logMapR C) = Real.pi := by
      unfold norm3
      rw [hsum]
      exact Real.sqrt_sq (le_of_lt Real.pi_pos)
    have hnφne : norm3 (logMapR C) ≠ 0 := by
      rw [hnφ]
      exact Real.pi_ne_zero
    have hax0 : (Real.pi⁻¹ • logMapR C) 0 = (C 0 1) / (2 * Real.sqrt ((C 1 1 + 1) / 2)) := by
      simp only [Pi.smul_apply, smul_eq_mul]
      rw [hl0]
      field_simp
    have hax1 : (Real.pi⁻¹ • logMapR C) 1 = (C 1 1 + 1) / (2 * Real.sqrt ((C 1 1 + 1) / 2)) := by
      simp only [Pi.smul_apply, smul_eq_mul]
      rw [hl1]
      field_simp
    have hax2 : (Real.pi⁻¹ • logMapR C) 2 = (C 1 2) / (2 * Real.sqrt ((C 1 1 + 1) / 2)) := by
      simp only [Pi.smul_apply, smul_eq_mul]
      rw [hl2]
      field_simp
    have hp00 : (C 0 1) * (C 0 1) = (C 0 0 + 1) * (C 1 1 + 1) := by
      linear_combination (-1 : ℝ) * m01
    have hp01 : (C 0 1) * (C 1 1 + 1) = (C 0 1) * (C 1 1 + 1) := by
      ring
    have hp02 : (C 0 1) * (C 1 2) = (C 0 2) * (C 1 1 + 1) := by
      linear_combination (-1 : ℝ) * x1
    have hp11 : (C 1 1 + 1) * (C 1 1 + 1) = (C 1 1 + 1) * (C 1 1 + 1) := by
      ring
    have hp12 : (C 1 1 + 1) * (C 1 2) = (C 1 2) * (C 1 1 + 1) := by
      ring
    have hp22 : (C 1 2) * (C 1 2) = (C 2 2 + 1) * (C 1 1 + 1) := by
      linear_combination (-1 : ℝ) * m12
    have e00 : expMapR (logMapR C) 0 0 = C 0 0 := by
      have hax := axis_prod (C 0 1) (C 0 1) (C 0 0 + 1) (C 1 1 + 1) (Real.sqrt ((C 1 1 + 1) / 2)) hp00 ha2 hane
      rw [expMapR_apply hnφne 0 0, if_pos (rfl : (0 : Fin 3) = 0), hnφ, Real.cos_pi, Real.sin_pi, hax0]
      linear_combination hax
    have e01 : expMapR (logMapR C) 0 1 = C 0 1 := by
      have hax := axis_prod (C 0 1) (C 1 1 + 1) (C 0 1) (C 1 1 + 1) (Real.sqrt ((C 1 1 + 1) / 2)) hp01 ha2 hane
      rw [expMapR_apply hnφne 0 1, if_neg (by decide : ¬ (0 : Fin 3) = 1), hnφ, Real.cos_pi, Real.sin_pi, hax0, hax1]
      linear_combination hax
    have e02 : expMapR (logMapR C) 0 2 = C 0 2 := by
      have hax := axis_prod (C 0 1) (C 1 2) (C 0 2) (C 1 1 + 1) (Real.sqrt ((C 1 1 + 1) / 2)) hp02 ha2 hane
      rw [expMapR_apply hnφne 0 2, if_neg (by decide : ¬ (0 : Fin 3) = 2), hnφ, Real.cos_pi, Real.sin_pi, hax0, hax2]
      linear_combination hax
    have e10 : expMapR (logMapR C) 1 0 = C 1 0 := by
      have hax := axis_prod (C 1 1 + 1) (C 0 1) (C 0 1) (C 1 1 + 1) (Real.sqrt ((C 1 1 + 1) / 2)) (by linear_combination hp01 : (C 1 1 + 1) * (C 0 1) = (C 0 1) * (C 1 1 + 1)) ha2 hane
      rw [expMapR_apply hnφne 1 0, if_neg (by decide : ¬ (1 : Fin 3) = 0), hnφ, Real.cos_pi, Real.sin_pi, hax1, hax0, hs10]
      linear_combination hax
    have e11 : expMapR (logMapR C) 1 1 = C 1 1 := by
      have hax := axis_prod (C 1 1 + 1) (C 1 1 + 1) (C 1 1 + 1) (C 1 1 + 1) (Real.sqrt ((C 1 1 + 1) / 2)) hp11 ha2 hane
      rw [expMapR_apply hnφne 1 1, if_pos (rfl : (1 : Fin 3) = 1), hnφ, Real.cos_pi, Real.sin_pi, hax1]
      linear_combination hax
    have e12 : expMapR (logMapR C) 1 2 = C 1 2 := by
      have hax := axis_prod (C 1 1 + 1) (C 1 2) (C 1 2) (C 1 1 + 1) (Real.sqrt ((C 1 1 + 1) / 2)) hp12 ha2 hane
      rw [expMapR_apply hnφne 1 2, if_neg (by decide : ¬ (1 : Fin 3) = 2), hnφ, Real.cos_pi, Real.sin_pi, hax1, hax2]
      linear_combination hax
    have e20 : expMapR (logMapR C) 2 0 = C 2 0 := by
      have hax := axis_prod (C 1 2) (C 0 1) (C 0 2) (C 1 1 + 1) (Real.sqrt ((C 1 1 + 1) / 2)) (by linear_combination hp02 : (C 1 2) * (C 0 1) = (C 0 2) * (C 1 1 + 1)) ha2 hane
      rw [expMapR_apply hnφne 2 0, if_neg (by decide : ¬ (2 : Fin 3) = 0), hnφ, Real.cos_pi, Real.sin_pi, hax2, hax0, ← hs02]
      linear_combination hax
    have e21 : expMapR (logMapR C) 2 1 = C 2 1 := by
      have hax := axis_prod (C 1 2) (C 1 1 + 1) (C 1 2) (C 1 1 + 1) (Real.sqrt ((C 1 1 + 1) / 2)) (by linear_combination hp12 : (C 1 2) * (C 1 1 + 1) = (C 1 2) * (C 1 1 + 1)) ha2 hane
      rw [expMapR_apply hnφne 2 1, if_neg (by decide : ¬ (2 : Fin 3) = 1), hnφ, Real.cos_pi, Real.sin_pi, hax2, hax1, hs21]
      linear_combination hax
    have e22 : expMapR (logMapR C) 2 2 = C 2 2 := by
      have hax := axis_prod (C 1 2) (C 1 2) (C 2 2 + 1) (C 1 1 + 1) (Real.sqrt ((C 1 1 + 1) / 2)) hp22 ha2 hane
      rw [expMapR_apply hnφne 2 2, if_pos (rfl : (2 : Fin 3) = 2), hnφ, Real.cos_pi, Real.sin_pi, hax2]
      linear_combination hax
    rw [Matrix.eta_fin_three (expMapR (logMapR C)), e00, e01, e02, e10, e11,
      e12, e20, e21, e22]
    exact (Matrix.eta_fin_three C).symm
  · have hDK : (C + 1) (2 : Fin 3) 2 = C 2 2 + 1 := by
      simp [Matrix.add_apply, Matrix.one_apply]
    simp only [hk] at hlog hkk
    simp only [hDK] at hlog hkk
    have hU0 : (C + 1) (0 : Fin 3) 2 = (C 0 2) := by
      simp [Matrix.add_apply, Matrix.one_apply]
    have hU1 : (C + 1) (1 : Fin 3) 2 = (C 1 2) := by
      simp [Matrix.add_apply, Matrix.one_apply]
    have hU2 : (C + 1) (2 : Fin 3) 2 = (C 2 2 + 1) := by
      simp [Matrix.add_apply, Matrix.one_apply]
    have ha2 : (Real.sqrt ((C 2 2 + 1) / 2)) ^ 2 = (C 2 2 + 1) / 2 := Real.sq_sqrt (by linarith)
    have hane : (Real.sqrt ((C 2 2 + 1) / 2)) ≠ 0 := ne_of_gt (Real.sqrt_pos.mpr (by linarith))
    have hl0 : logMapR C 0 = Real.pi * ((C 0 2) / (2 * Real.sqrt ((C 2 2 + 1) / 2))) := by
      rw [hlog]
      show Real.pi * ((C + 1) (0 : Fin 3) 2 / (2 * Real.sqrt ((C 2 2 + 1) / 2))) = _
      rw [hU0]
    have hl1 : logMapR C 1 = Real.pi * ((C 1 2) / (2 * Real.sqrt ((C 2 2 + 1) / 2))) := by
      rw [hlog]
      show Real.pi * ((C + 1) (1 : Fin 3) 2 / (2 * Real.sqrt ((C 2 2 + 1) / 2))) = _
      rw [hU1]
    have hl2 : logMapR C 2 = Real.pi * ((C 2 2 + 1) / (2 * Real.sqrt ((C 2 2 + 1) / 2))) := by
      rw [hlog]
      show Real.pi * ((C + 1) (2 : Fin 3) 2 / (2 * Real.sqrt ((C 2 2 + 1) / 2))) = _
      rw [hU2]
    have hsum : logMapR C 0 ^ 2 + logMapR C 1 ^ 2 + logMapR C 2 ^ 2 = Real.pi ^ 2 := by
      rw [hl0, hl1, hl2]
      exact pi_log_normsq (C 0 2) (C 1 2) (C 2 2 + 1) (C 2 2 + 1) _ h22 ha2 hane
    have hnφ : norm3 (logMapR C) = Real.pi := by
      unfold norm3
      rw [hsum]
      exact Real.sqrt_sq (le_of_lt Real.pi_pos)
    have hnφne : norm3 (logMapR C) ≠ 0 := by
      rw [hnφ]
      exact Real.pi_ne_zero
    have hax0 : (Real.pi⁻¹ • logMapR C) 0 = (C 0 2) / (2 * Real.sqrt ((C 2 2 + 1) / 2)) := by
      simp only [Pi.smul_apply, smul_eq_mul]
      rw [hl0]
      field_simp
    have hax1 : (Real.pi⁻¹ • logMapR C) 1 = (C 1 2) / (2 * Real.sqrt ((C 2 2 + 1) / 2)) := by
      simp only [Pi.smul_apply, smul_eq_mul]
      rw [hl1]
      field_simp
    have hax2 : (Real.pi⁻¹ • logMapR C) 2 = (C 2 2 + 1) / (2 * Real.sqrt ((C 2 2 + 1) / 2)) := by
      simp only [Pi.smul_apply, smul_eq_mul]
      rw [hl2]
      field_simp
    have hp00 : (C 0 2) * (C 0 2) = (C 0 0 + 1) * (C 2 2 + 1) := by
      linear_combination (-1 : ℝ) * m02
    have hp01 : (C 0 2) * (C 1 2) = (C 0 1) * (C 2 2 + 1) := by
      linear_combination (-1 : ℝ) * x2
    have hp02 : (C 0 2) * (C 2 2 + 1) = (C 0 2) * (C 2 2 + 1) := by
      ring
    have hp11 : (C 1 2) * (C 1 2) = (C 1 1 + 1) * (C 2 2 + 1) := by
      linear_combination (-1 : ℝ) * m12
    have hp12 : (C 1 2) * (C 2 2 + 1) = (C 1 2) * (C 2 2 + 1) := by
      ring
    have hp22 : (C 2 2 + 1) * (C 2 2 + 1) = (C 2 2 + 1) * (C 2 2 + 1) := by
      ring
    have e00 : expMapR (logMapR C) 0 0 = C 0 0 := by
      have hax := axis_prod (C 0 2) (C 0 2) (C 0 0 + 1) (C 2 2 + 1) (Real.sqrt ((C 2 2 + 1) / 2)) hp00 ha2 hane
      rw [expMapR_apply hnφne 0 0, if_pos (rfl : (0 : Fin 3) = 0), hnφ, Real.cos_pi, Real.sin_pi, hax0]
      linear_combination hax
    have e01 : expMapR (logMapR C) 0 1 = C 0 1 := by
      have hax := axis_prod (C 0 2) (C 1 2) (C 0 1) (C 2 2 + 1) (Real.sqrt ((C 2 2 + 1) / 2)) hp01 ha2 hane
      rw [expMapR_apply hnφne 0 1, if_neg (by decide : ¬ (0 : Fin 3) = 1), hnφ, Real.cos_pi, Real.sin_pi, hax0, hax1]
      linear_combination hax
    have e02 : expMapR (logMapR C) 0 2 = C 0 2 := by
      have hax := axis_prod (C 0 2) (C 2 2 + 1) (C 0 2) (C 2 2 + 1) (Real.sqrt ((C 2 2 + 1) / 2)) hp02 ha2 hane
      rw [expMapR_apply hnφne 0 2, if_neg (by decide : ¬ (0 : Fin 3) = 2), hnφ, Real.cos_pi, Real.sin_pi, hax0, hax2]
      linear_combination hax
    have e10 : expMapR (logMapR C) 1 0 = C 1 0 := by
      have hax := axis_prod (C 1 2) (C 0 2) (C 0 1) (C 2 2 + 1) (Real.sqrt ((C 2 2 + 1) / 2)) (by linear_combination hp01 : (C 1 2) * (C 0 2) = (C 0 1) * (C 2 2 + 1)) ha2 hane
      rw [expMapR_apply hnφne 1 0, if_neg (by decide : ¬ (1 : Fin 3) = 0), hnφ, Real.cos_pi, Real.sin_pi, hax1, hax0, hs10]
      linear_combination hax
    have e11 : expMapR (logMapR C) 1 1 = C 1 1 := by
      have hax := axis_prod (C 1 2) (C 1 2) (C 1 1 + 1) (C 2 2 + 1) (Real.sqrt ((C 2 2 + 1) / 2)) hp11 ha2 hane
      rw [expMapR_apply hnφne 1 1, if_pos (rfl : (1 : Fin 3) = 1), hnφ, Real.cos_pi, Real.sin_pi, hax1]
      linear_combination hax
    have e12 : expMapR (logMapR C) 1 2 = C 1 2 := by
      have hax := axis_prod (C 1 2) (C 2 2 + 1) (C 1 2) (C 2 2 + 1) (Real.sqrt ((C 2 2 + 1) / 2)) hp12 ha2 hane
      rw [expMapR_apply hnφne 1 2, if_neg (by decide : ¬ (1 : Fin 3) = 2), hnφ, Real.cos_pi, Real.sin_pi, hax1, hax2]
      linear_combination hax
    have e20 : expMapR (logMapR C) 2 0 = C 2 0 := by
      have hax := axis_prod (C 2 2 + 1) (C 0 2) (C 0 2) (C 2 2 + 1) (Real.sqrt ((C 2 2 + 1) / 2)) (by linear_combination hp02 : (C 2 2 + 1) * (C 0 2) = (C 0 2) * (C 2 2 + 1)) ha2 hane
      rw [expMapR_apply hnφne 2 0, if_neg (by decide : ¬ (2 : Fin 3) = 0), hnφ, Real.cos_pi, Real.sin_pi, hax2, hax0, ← hs02]
      linear_combination hax
    have e21 : expMapR (logMapR C) 2 1 = C 2 1 := by
      have hax := axis_prod (C 2 2 + 1) (C 1 2) (C 1 2) (C 2 2 + 1) (Real.sqrt ((C 2 2 + 1) / 2)) (by linear_combination hp12 : (C 2 2 + 1) * (C 1 2) = (C 1 2) * (C 2 2 + 1)) ha2 hane
      rw [expMapR_apply hnφne 2 1, if_neg (by decide : ¬ (2 : Fin 3) = 1), hnφ, Real.cos_pi, Real.sin_pi, hax2, hax1, hs21]
      linear_combination hax
    have e22 : expMapR (logMapR C) 2 2 = C 2 2 := by
      have hax := axis_prod (C 2 2 + 1) (C 2 2 + 1) (C 2 2 + 1) (C 2 2 + 1) (Real.sqrt ((C 2 2 + 1) / 2)) hp22 ha2 hane
      rw [expMapR_apply hnφne 2 2, if_pos (rfl : (2 : Fin 3) = 2), hnφ, Real.cos_pi, Real.sin_pi, hax2]
      linear_combination hax
    rw [Matrix.eta_fin_three (expMapR (logMapR C)), e00, e01, e02, e10, e11,
      e12, e20, e21, e22]
    exact (Matrix.eta_fin_three C).symm

end LgRot

namespace LgRot

/-- C1: the spec-modelled exponential and logarithmic maps are mutually
inverse on the canonical domain: `exp(log C) = C` for every matrix in SO(3)
(all three branches of the logarithmic map, including the near-π branch),
and `log(exp φ) = φ` for every axis-angle vector with `‖φ‖ < π`.  Under
exact real arithmetic the equalities are exact, hence within any
floating-point tolerance, and the spec's `ε` guard band around `π` is not
needed. -/
theorem c1_exp_log_mutually_inverse :
    (∀ C : Mat3R, isSO3R C → expMapR (logMapR C) = C) ∧
    (∀ φ : Vec3R, norm3 φ < Real.pi → logMapR (expMapR φ) = φ) := by
  constructor
  · intro C hSO
    obtain ⟨horto, hdet⟩ := hSO
    have hub := so3_trace_le_three horto
    have hlb := so3_neg_one_le_trace horto hdet
    rcases eq_or_lt_of_le hub with h3 | h3
    · exact exp_log_of_trace_three horto h3
    · rcases eq_or_lt_of_le hlb with hm1 | hm1
      · exact exp_log_of_trace_neg_one horto hdet hm1.symm
      · exact exp_log_generic horto hdet hm1 h3
  · intro φ h
    exact log_exp_eq h

/-- Witness for C1: the matrix-side round trip at the identity rotation and
the vector-side round trip at the zero axis-angle vector. -/
theorem c1_witness :
    isSO3R (1 : Mat3R) ∧ expMapR (logMapR 1) = 1 ∧
    norm3 (0 : Vec3R) < Real.pi ∧ logMapR (expMapR 0) = 0 := by
  have h1 : isSO3R (1 : Mat3R) := ⟨by simp, by simp⟩
  have h0 : norm3 (0 : Vec3R) < Real.pi := by
    rw [(norm3_eq_zero_iff 0).mpr rfl]
    exact Real.pi_pos
  exact ⟨h1, c1_exp_log_mutually_inverse.1 1 h1, h0,
    c1_exp_log_mutually_inverse.2 0 h0⟩

end LgRot
